import Mathlib

/-!
Shallow embedding of the bank-statement extraction engine
(`src/api/extractors/apgvb_extractor.py`, `canara_bank_extractor.py`,
`union_bank_extractor.py`) and proofs about its specification.

Conventions of the embedding:

* Monetary values (`Money`): Python parses amounts with `float(...)` and
  computes with binary64 doubles. We embed the decimal value x of a token
  as the exact integer x * 10^6 (`moneyScale = 6` fractional digits),
  which keeps all arithmetic kernel-computable. The two semantics agree
  wherever the verified statements look: on single parsed values carried
  through unchanged, on order comparisons and sign tests (decimal-to-
  double rounding is monotone and zero is exact), and on every sum and
  difference of whole-unit values totalling at most 2^53 units (integers
  in that range are represented exactly in binary64 and their sums and
  differences round exactly). They can disagree on sums of fractional
  amounts (binary64 gives 0.10 + 0.20 ≠ 0.30): the only statement in this
  file that compares such sums — the reconciliation law — is therefore
  restricted to the whole-unit, float-exact domain (`APGVB.wholeChainB`,
  `APGVB.chainFloatExactB`).
* Strings are embedded as `List Char` (Python `str` is a character
  sequence); `trimChars` is Python `str.strip()`, `pySplitWs` is
  `str.split()`, `splitOnChar` is `str.split(sep)`.
* The regular expressions used by the source are simple enough that the
  greedy, non-backtracking scanners below implement them exactly: in each
  pattern (`([\d,]+\.?\d*)Cr\s+`, `(\d+\.?\d*)\s*\((Dr|Cr)\)`, etc.) a
  shorter choice for one greedy piece always makes the following literal
  fail on a character of the same class, so backtracking can never turn a
  failure into a match.
* The APGVB transaction dict stores `Debit`/`Credit` as strings: the
  non-selected side is the placeholder "0.00" (later replaced by ""), the
  selected side is `str(amount)` (never "" and never equal to "0.00",
  since Python renders floats with a single fractional digit at minimum,
  e.g. "0.0"). We embed these two fields as `Option Money`: `none` is the
  empty string / filtered placeholder, `some a` the rendered amount.
* Each extractor's result dict drops the `processed_at` timestamp (wall
  clock) and the constant `extractor_metadata`; file-path validation and
  the pypdf reader are I/O collaborators outside the model. A `Pdf` value
  carries what they provide: the per-page text, the encryption flag and
  the set of passwords the decryption primitive accepts.
* Python dict results: an extractor's `_calculate_financial_summary`
  returns the literal empty dict `{}` when there are no transactions; we
  embed the summary as `Option FinancialSummary` with `none` standing for
  that field-less `{}`.
-/

namespace BankSpec

/-- Monetary values: the decimal x is embedded as the integer x * 10^6. -/
abbrev Money := Int

/-- Number of fractional decimal digits carried by `Money`. -/
def moneyScale : Nat := 6

/-- The decimal value of a natural number of whole units, as `Money`. -/
def moneyOfNat (n : Nat) : Money := (n : Int) * (10 : Int) ^ moneyScale

/-- Value of a list of decimal digit characters. -/
def digitsToNat (cs : List Char) : Nat :=
  cs.foldl (fun a c => a * 10 + (c.toNat - '0'.toNat)) 0

/-- Characters counted as whitespace by Python `str.strip()` / `str.split()`. -/
def isWsC (c : Char) : Bool := c.isWhitespace

/-- Character class `[\d,]` used by the amount/balance regexes. -/
def isDigitComma (c : Char) : Bool := c.isDigit || c = ','

/-- Python `str.strip()`. -/
def trimChars (cs : List Char) : List Char :=
  ((cs.dropWhile isWsC).reverse.dropWhile isWsC).reverse

/-- Whether `needle` is a prefix of `hay` (used for Python `str.startswith`). -/
def startsWithChars : List Char → List Char → Bool
  | [], _ => true
  | _ :: _, [] => false
  | a :: as, b :: bs => a = b && startsWithChars as bs

/-- Python substring test `needle in hay`. -/
def containsSub (needle : List Char) : List Char → Bool
  | [] => startsWithChars needle []
  | c :: cs => startsWithChars needle (c :: cs) || containsSub needle cs

/-- Python `hay.find(needle)`: index of the leftmost occurrence, if any. -/
def findSub (needle : List Char) : List Char → Option Nat
  | [] => if startsWithChars needle [] then some 0 else none
  | c :: cs =>
    if startsWithChars needle (c :: cs) then some 0
    else (findSub needle cs).map (· + 1)

/-- Python `s.split(sep)` for a single-character separator. -/
def splitOnChar (sep : Char) : List Char → List (List Char)
  | [] => [[]]
  | c :: cs =>
    if c = sep then [] :: splitOnChar sep cs
    else
      match splitOnChar sep cs with
      | [] => [[c]]
      | g :: gs => (c :: g) :: gs

/-- Helper for `pySplitWs`, carrying the current (reversed) word. -/
def pySplitWsAux : List Char → List Char → List (List Char)
  | [], acc => if acc.isEmpty then [] else [acc.reverse]
  | c :: cs, acc =>
    if isWsC c then
      if acc.isEmpty then pySplitWsAux cs [] else acc.reverse :: pySplitWsAux cs []
    else pySplitWsAux cs (c :: acc)

/-- Python `s.split()` (split on whitespace runs, dropping empty pieces). -/
def pySplitWs (cs : List Char) : List (List Char) := pySplitWsAux cs []

/-- Python `<` on strings: lexicographic comparison by code point. -/
def ltChars : List Char → List Char → Bool
  | [], [] => false
  | [], _ :: _ => true
  | _ :: _, [] => false
  | a :: as, b :: bs =>
    if a.toNat < b.toNat then true
    else if b.toNat < a.toNat then false
    else ltChars as bs

/-- Python `min` over a list of strings (first minimum wins). -/
def minChars? : List (List Char) → Option (List Char)
  | [] => none
  | d :: ds => some (ds.foldl (fun a b => if ltChars b a then b else a) d)

/-- Python `max` over a list of strings (first maximum wins). -/
def maxChars? : List (List Char) → Option (List Char)
  | [] => none
  | d :: ds => some (ds.foldl (fun a b => if ltChars a b then b else a) d)

/-- Python `float(s)` on a string made of digits, at most one '.', and the
commas already filtered out: exact decimal value, scaled by 10^moneyScale.
Fractional digits past `moneyScale` are not produced by statement data.
Degenerate tokens with no digits at all (e.g. only commas), on which the
source's `float` would raise inside a per-line `try`, do not occur in any
input evaluated here.  The embedding keeps the token's exact decimal
value; the interpreter stores the nearest binary64 double — see the file
header for the domain on which the two provably coincide. -/
def pyFloatOfChars (cs : List Char) : Money :=
  let cs := cs.filter (fun c => c ≠ ',')
  let ip := cs.takeWhile (fun c => c ≠ '.')
  let fp := ((cs.dropWhile (fun c => c ≠ '.')).drop 1).take moneyScale
  (digitsToNat ip : Int) * (10 : Int) ^ moneyScale
    + (digitsToNat fp : Int) * (10 : Int) ^ (moneyScale - fp.length)

/-- Match the regex fragment `[\d,]+\.?\d*` greedily at the head of the
input; returns the matched characters and the rest. -/
def matchNumTokenAt (cs : List Char) : Option (List Char × List Char) :=
  let n1 := cs.takeWhile isDigitComma
  let r1 := cs.dropWhile isDigitComma
  if n1.isEmpty then none
  else
    match r1 with
    | '.' :: r => some (n1 ++ '.' :: r.takeWhile Char.isDigit, r.dropWhile Char.isDigit)
    | _ => some (n1, r1)

/-- All non-overlapping matches of `[\d,]+\.?\d*` (Python `re.findall`),
scanning left to right.  `fuel` bounds the recursion (callers pass the
input length). -/
def findallNumTokens : Nat → List Char → List (List Char)
  | 0, _ => []
  | _, [] => []
  | fuel + 1, c :: cs =>
    match matchNumTokenAt (c :: cs) with
    | some (num, rest) => num :: findallNumTokens fuel rest
    | none => findallNumTokens fuel cs

/-- Decidable equality for `Except`, so concrete extraction results can
be compared by evaluation. -/
instance {ε α : Type} [DecidableEq ε] [DecidableEq α] : DecidableEq (Except ε α) :=
  fun a b =>
    match a, b with
    | .error e1, .error e2 =>
      if h : e1 = e2 then isTrue (by rw [h])
      else isFalse (fun hc => h (by injection hc))
    | .ok v1, .ok v2 =>
      if h : v1 = v2 then isTrue (by rw [h])
      else isFalse (fun hc => h (by injection hc))
    | .error _, .ok _ => isFalse (fun hc => Except.noConfusion hc)
    | .ok _, .error _ => isFalse (fun hc => Except.noConfusion hc)

/-- The external collaborators' view of one PDF: its per-page text (from
the text-extraction library), whether it is encrypted, and which password
strings the decryption primitive accepts. -/
structure Pdf where
  isEncrypted : Bool
  accepts : List Char → Bool
  pages : List (List Char)

/-- Financial summary dict shared by the three extractors
(`opening_balance`, `closing_balance`, `total_debits`, `total_credits`,
`net_change`, `transaction_count`, `date_range`). -/
structure FinancialSummary where
  openingBalance : Money
  closingBalance : Money
  totalDebits : Money
  totalCredits : Money
  netChange : Money
  transactionCount : Nat
  dateFrom : Option (List Char)
  dateTo : Option (List Char)
deriving DecidableEq

namespace APGVB

/-- One APGVB transaction dict (`S.No`, `Date`, `Transaction_ID`,
`Remarks`, `Debit`, `Credit`, `Balance`, `Transaction_Type`,
`Page_Number`).  `S.No` is stored by the source as `str(counter)`; the
decimal rendering is injective, so the model keeps the counter itself.
`Balance` is stored as `str(current_balance)` and re-parsed by the
summary with `float`, a round trip, so the model keeps the value. -/
structure Txn where
  sNo : Nat
  date : List Char
  transactionId : List Char
  remarks : List Char
  debit : Option Money
  credit : Option Money
  balance : Money
  transactionType : List Char
  pageNumber : Nat
deriving DecidableEq

/-- Statement metadata (`_extract_statement_metadata`).  Only the
`opening_balance` field participates in any claim; the other header
fields (account number, customer name, branch, period) are best-effort
strings with no influence on transactions or the summary, and are not
carried by the model. -/
structure StatementMetadata where
  openingBalance : Option Money
deriving DecidableEq

/-- `_initialize_previous_balance`: sets `_previous_balance` to 0.0 only
when the attribute is absent (`none`); an existing value is kept. -/
def initPreviousBalance : Option Money → Option Money
  | none => some 0
  | some b => some b

/-- `_should_skip_line` (amount-extraction loop). -/
def shouldSkipLine (line : List Char) : Bool :=
  line.isEmpty || startsWithChars ("---".data) line

/-- `_should_skip_header_line`. -/
def shouldSkipHeaderLine (line : List Char) : Bool :=
  ["GL.".data, "Date".data, "Value".data, "Instrmnt".data, "Particulars".data,
   "Transaction".data, "Debit Amount".data, "Credit Amount".data, "Balance".data,
   "Entry".data, "Verified".data, "User Id".data, "Order by GL. Date".data,
   "Page Total".data, "B/F Balance".data].any (fun k => containsSub k line)

/-- `_should_skip_empty_or_separator_line`. -/
def shouldSkipEmptyOrSeparatorLine (line : List Char) : Bool :=
  line.isEmpty || startsWithChars ("---".data) line || containsSub ("Page".data) line

/-- Match `([\d,]+\.?\d*)Cr\s+` at the head of the input, returning the
number characters when it matches. -/
def matchBalanceAt (cs : List Char) : Option (List Char) :=
  match matchNumTokenAt cs with
  | none => none
  | some (num, rest) =>
    match rest with
    | 'C' :: 'r' :: w :: _ => if isWsC w then some num else none
    | _ => none

/-- Leftmost match of `([\d,]+\.?\d*)Cr\s+` (`re.search`): returns the
characters before the match and the number characters. -/
def searchBalance : List Char → Option (List Char × List Char)
  | [] => none
  | c :: cs =>
    match matchBalanceAt (c :: cs) with
    | some num => some ([], num)
    | none =>
      match searchBalance cs with
      | some (p, num) => some (c :: p, num)
      | none => none

/-- `_extract_balance_from_line`: current balance and the stripped text
before it. -/
def extractBalanceFromLine (line : List Char) : Option (Money × List Char) :=
  match searchBalance line with
  | none => none
  | some (p, num) => some (pyFloatOfChars num, trimChars p)

/-- `_extract_transaction_amount`: last well-formed numeric token in the
text before the balance (`re.findall` + `isdigit` filter). -/
def extractTransactionAmount (beforeBalance : List Char) : Option Money :=
  let amounts := findallNumTokens beforeBalance.length beforeBalance
  let cleanAmounts := (amounts.filter (fun a =>
    let d := a.filter (fun c => c ≠ ',' && c ≠ '.')
    !d.isEmpty && d.all Char.isDigit)).map pyFloatOfChars
  cleanAmounts.getLast?

/-- Result tuple of `_determine_transaction_type`: debit amount, credit
amount, balance and the look-ahead offset where the amounts were found. -/
structure AmountsInfo where
  debit : Option Money
  credit : Option Money
  balance : Money
  offset : Nat
deriving DecidableEq

/-- `_determine_transaction_type`: classify by the sign of
`current_balance - previous_balance` and move the accumulator to the
current balance (second component). -/
def determineTransactionType (prev amt cur : Money) (offset : Nat) :
    AmountsInfo × Money :=
  let balanceChange := cur - prev
  if balanceChange > 0 then
    ({ debit := none, credit := some amt, balance := cur, offset := offset }, cur)
  else if balanceChange < 0 then
    ({ debit := some amt, credit := none, balance := cur, offset := offset }, cur)
  else
    ({ debit := none, credit := some amt, balance := cur, offset := offset }, cur)

/-- The offset loop inside `_extract_transaction_amounts` (the caller
passes the ≤ 4 look-ahead lines). -/
def extractAmountsLoop (prev : Money) (offset : Nat) :
    List (List Char) → Option (AmountsInfo × Money)
  | [] => none
  | l :: ls =>
    let line := trimChars l
    if shouldSkipLine line then extractAmountsLoop prev (offset + 1) ls
    else
      match extractBalanceFromLine line with
      | none => extractAmountsLoop prev (offset + 1) ls
      | some (cur, before) =>
        match extractTransactionAmount before with
        | none => extractAmountsLoop prev (offset + 1) ls
        | some amt => some (determineTransactionType prev amt cur offset)

/-- `_extract_transaction_amounts`: lazily creates `_previous_balance`,
searches up to 4 lines ahead starting at the transaction line, and on
success updates the accumulator. -/
def extractTransactionAmounts (state : Option Money)
    (lookahead : List (List Char)) : Option AmountsInfo × Option Money :=
  let prev := match initPreviousBalance state with
    | some b => b
    | none => 0
  match extractAmountsLoop prev 0 (lookahead.take 4) with
  | none => (none, some prev)
  | some (info, newPrev) => (some info, some newPrev)

/-- `_parse_transaction_line`: anchor regex
`^(\d{2}-\d{2}-\d{4})\s+(\d{2}-\d{2}-\d{4})\s+(.+)`; returns the GL date
and the stripped text after the two dates. -/
def matchDateDDMMYYYY (cs : List Char) : Option (List Char × List Char) :=
  match cs with
  | d1 :: d2 :: h1 :: m1 :: m2 :: h2 :: y1 :: y2 :: y3 :: y4 :: rest =>
    if d1.isDigit && d2.isDigit && h1 = '-' && m1.isDigit && m2.isDigit &&
       h2 = '-' && y1.isDigit && y2.isDigit && y3.isDigit && y4.isDigit then
      some ([d1, d2, h1, m1, m2, h2, y1, y2, y3, y4], rest)
    else none
  | _ => none

/-- See `matchDateDDMMYYYY`; `none` when the current line is not a
transaction anchor. -/
def parseTransactionLine (line : List Char) : Option (List Char × List Char) :=
  match matchDateDDMMYYYY line with
  | none => none
  | some (glDate, r1) =>
    if (r1.takeWhile isWsC).isEmpty then none
    else
      let r2 := r1.dropWhile isWsC
      match matchDateDDMMYYYY r2 with
      | none => none
      | some (_, r3) =>
        if (r3.takeWhile isWsC).isEmpty then none
        else
          let r4 := r3.dropWhile isWsC
          if r4.isEmpty then none else some (glDate, trimChars r4)

/-- Does `\s+[\d,]+\.?\d*\s` match at the head of the input? -/
def matchCleanCutAt (cs : List Char) : Bool :=
  if (cs.takeWhile isWsC).isEmpty then false
  else
    match matchNumTokenAt (cs.dropWhile isWsC) with
    | none => false
    | some (_, rest) =>
      match rest with
      | w :: _ => isWsC w
      | [] => false

/-- Characters before the leftmost match of `\s+[\d,]+\.?\d*\s`. -/
def searchCleanCut : List Char → Option (List Char)
  | [] => none
  | c :: cs =>
    if matchCleanCutAt (c :: cs) then some []
    else (searchCleanCut cs).map (c :: ·)

/-- Does `\s+[\d,]+\.?\d*Cr` match at the head of the input? -/
def matchBalCutAt (cs : List Char) : Bool :=
  if (cs.takeWhile isWsC).isEmpty then false
  else
    match matchNumTokenAt (cs.dropWhile isWsC) with
    | none => false
    | some (_, rest) =>
      match rest with
      | 'C' :: 'r' :: _ => true
      | _ => false

/-- Characters before the leftmost match of `\s+[\d,]+\.?\d*Cr` (the
`re.sub` fallback removes from there to the end of the line). -/
def searchBalCut : List Char → Option (List Char)
  | [] => none
  | c :: cs =>
    if matchBalCutAt (c :: cs) then some []
    else (searchBalCut cs).map (c :: ·)

/-- `_clean_transaction_description`. -/
def cleanTransactionDescription (full : List Char) : List Char :=
  match searchCleanCut full with
  | some p => trimChars p
  | none =>
    match searchBalCut full with
    | some p => trimChars p
    | none => trimChars full

/-- `_process_transaction_data`: build the transaction dict from the
parsed anchor line and the amounts found in the look-ahead window. -/
def processTransactionData (state : Option Money) (glDate fullAfterDates : List Char)
    (lookahead : List (List Char)) (counter pageNum : Nat) :
    Option (Txn × Nat) × Option Money :=
  match extractTransactionAmounts state lookahead with
  | (none, st) => (none, st)
  | (some info, st) =>
    let t : Txn :=
      { sNo := counter
        date := glDate
        transactionId := []
        remarks := cleanTransactionDescription fullAfterDates
        debit := info.debit
        credit := info.credit
        balance := info.balance
        transactionType := if info.credit.isSome then "Credit".data else "Debit".data
        pageNumber := pageNum }
    (some (t, info.offset), st)

/-- The `while` loop of `_extract_transactions_from_page`: on success the
index advances by `offset + 1`, otherwise by 1.  `fuel` bounds the
recursion (callers pass the number of lines); the index always advances,
so the fuel never runs out on real inputs. -/
def pageLoop (fuel : Nat) (state : Option Money) (counter pageNum : Nat) :
    List (List Char) → List Txn × Option Money
  | [] => ([], state)
  | l :: rest =>
    match fuel with
    | 0 => ([], state)
    | f + 1 =>
      let line := trimChars l
      if shouldSkipHeaderLine line then pageLoop f state counter pageNum rest
      else if shouldSkipEmptyOrSeparatorLine line then pageLoop f state counter pageNum rest
      else
        match parseTransactionLine line with
        | none => pageLoop f state counter pageNum rest
        | some (glDate, fullAfter) =>
          match processTransactionData state glDate fullAfter (l :: rest) counter pageNum with
          | (none, st) => pageLoop f st counter pageNum rest
          | (some (t, offset), st) =>
            let next := pageLoop f st (counter + 1) pageNum (rest.drop offset)
            (t :: next.1, next.2)

/-- `_extract_transactions_from_page`. -/
def extractTransactionsFromPage (state : Option Money) (pageText : List Char)
    (pageNum startCounter : Nat) : List Txn × Option Money :=
  let lines := splitOnChar '\n' pageText
  pageLoop lines.length state startCounter pageNum lines

/-- The page loop of `_extract_all_transactions`: empty page texts are
skipped, the counter continues across pages. -/
def extractPagesLoop (state : Option Money) (counter pageNum : Nat) :
    List (List Char) → List Txn × Option Money
  | [] => ([], state)
  | p :: ps =>
    if p.isEmpty then extractPagesLoop state counter (pageNum + 1) ps
    else
      let res := extractTransactionsFromPage state p pageNum counter
      let rest := extractPagesLoop res.2 (counter + res.1.length) (pageNum + 1) ps
      (res.1 ++ rest.1, rest.2)

/-- `_extract_all_transactions` (counter starts at 1, page numbers at 1). -/
def extractAllTransactions (state : Option Money) (pages : List (List Char)) :
    List Txn × Option Money :=
  extractPagesLoop state 1 1 pages

/-- Match `Opening Balance\s*:\s*([\d,]+(?:\.\d+)?)` at the head of the
input, returning the number characters. -/
def matchOpeningAt (cs : List Char) : Option (List Char) :=
  if startsWithChars ("Opening Balance".data) cs then
    match (cs.drop 15).dropWhile isWsC with
    | ':' :: r2 =>
      let r3 := r2.dropWhile isWsC
      let n1 := r3.takeWhile isDigitComma
      if n1.isEmpty then none
      else
        match r3.dropWhile isDigitComma with
        | '.' :: d :: ds =>
          if d.isDigit then some (n1 ++ '.' :: d :: ds.takeWhile Char.isDigit)
          else some n1
        | _ => some n1
    | _ => none
  else none

/-- Leftmost match of the opening-balance pattern (`re.search`). -/
def searchOpening : List Char → Option (List Char)
  | [] => none
  | c :: cs =>
    match matchOpeningAt (c :: cs) with
    | some n => some n
    | none => searchOpening cs

/-- `_extract_statement_metadata`, restricted to the `opening_balance`
field (see `StatementMetadata`): the first two page texts are joined and
scanned line by line, a later match overwriting an earlier one. -/
def extractStatementMetadata (pages : List (List Char)) : StatementMetadata :=
  let combined := (pages.take 2).foldl (fun a p => a ++ p ++ ['\n']) []
  (splitOnChar '\n' combined).foldl (fun m l =>
    let line := trimChars l
    if startsWithChars ("Opening Balance".data) line then
      match searchOpening line with
      | some n => { openingBalance := some (pyFloatOfChars n) }
      | none => m
    else m) { openingBalance := none }

/-- The debit total of `_calculate_financial_summary`: sum of the
non-empty `Debit` fields. -/
def sumDebits (txns : List Txn) : Money :=
  txns.foldl (fun a t =>
    match t.debit with
    | some d => a + d
    | none => a) 0

/-- The credit total of `_calculate_financial_summary`: sum of the
non-empty `Credit` fields. -/
def sumCredits (txns : List Txn) : Money :=
  txns.foldl (fun a t =>
    match t.credit with
    | some c => a + c
    | none => a) 0

/-- `_calculate_financial_summary`: `none` is the literal `{}` returned
for an empty transaction list.  The totals and net change are modelled in
exact integer arithmetic; the source accumulates binary64 floats, and the
two coincide on the whole-unit, float-exact domain described in the file
header — the reconciliation theorem is restricted to that domain. -/
def calculateFinancialSummary (m : StatementMetadata) (txns : List Txn) :
    Option FinancialSummary :=
  match txns with
  | [] => none
  | t0 :: ts =>
    let openingBalance := m.openingBalance.getD 0
    let closingBalance := ((t0 :: ts).getLast (List.cons_ne_nil t0 ts)).balance
    let totalDebits := sumDebits (t0 :: ts)
    let totalCredits := sumCredits (t0 :: ts)
    let dates := ((t0 :: ts).map (·.date)).filter (fun d => !d.isEmpty)
    some
      { openingBalance := openingBalance
        closingBalance := closingBalance
        totalDebits := totalDebits
        totalCredits := totalCredits
        netChange := totalCredits - totalDebits
        transactionCount := (t0 :: ts).length
        dateFrom := minChars? dates
        dateTo := maxChars? dates }

/-- Error message of `_decrypt_pdf` when `password` is falsy. -/
def noPasswordMsg : List Char :=
  "APGVB PDF is encrypted but no password provided".data

/-- Error message of `_decrypt_pdf` when both password variants fail. -/
def badPasswordMsg : List Char :=
  "Failed to decrypt APGVB PDF with provided password".data

/-- Error message of `_validate_pdf_content` failures. -/
def validationFailedMsg : List Char :=
  "Failed to validate PDF content".data

/-- `_decrypt_pdf`: try the password as given, then (when different)
with surrounding whitespace stripped. -/
def decryptPdf (pdf : Pdf) (password : Option (List Char)) :
    Except (List Char) Unit :=
  match password with
  | none => .error noPasswordMsg
  | some [] => .error noPasswordMsg
  | some p =>
    if pdf.accepts p then .ok ()
    else
      let trimmed := trimChars p
      if trimmed ≠ p then
        if pdf.accepts trimmed then .ok () else .error badPasswordMsg
      else .error badPasswordMsg

/-- `_validate_pdf_content`: page-count bound, non-empty page list, and
at least 10 characters of stripped text on the first page. -/
def validatePdfContent (pdf : Pdf) : Except (List Char) Unit :=
  if pdf.pages.length > 500 then .error validationFailedMsg
  else
    match pdf.pages with
    | [] => .error validationFailedMsg
    | t :: _ =>
      if (trimChars t).length < 10 then .error validationFailedMsg else .ok ()

/-- Result dict of `extract_complete_statement` (timestamp and constant
extractor metadata elided, see the file header). -/
structure Result where
  totalTransactions : Nat
  statementMetadata : StatementMetadata
  financialSummary : Option FinancialSummary
  transactions : List Txn
deriving DecidableEq

/-- `extract_complete_statement`: content validation, decryption when
encrypted, then metadata, transactions and summary.  The accumulator
state of the instance is threaded explicitly (`_previous_balance` is the
only instance state surviving between calls). -/
def extractCompleteStatement (state : Option Money) (pdf : Pdf)
    (password : Option (List Char)) :
    Except (List Char) Result × Option Money :=
  match validatePdfContent pdf with
  | .error e => (.error e, state)
  | .ok () =>
    match (if pdf.isEncrypted then decryptPdf pdf password else .ok ()) with
    | .error e => (.error e, state)
    | .ok () =>
      let m := extractStatementMetadata pdf.pages
      let res := extractAllTransactions state pdf.pages
      (.ok
        { totalTransactions := res.1.length
          statementMetadata := m
          financialSummary := calculateFinancialSummary m res.1
          transactions := res.1 }, res.2)

/-- Default transaction used only to discharge impossible `Option` cases
in theorem statements. -/
def defaultTxn : Txn :=
  { sNo := 0, date := [], transactionId := [], remarks := [], debit := none,
    credit := none, balance := 0, transactionType := [], pageNumber := 0 }

end APGVB

namespace Canara

/-- One Canara Bank transaction dict (`S.No`, `Date`, `Remarks`, `Debit`,
`Credit`, `Balance`, `Transaction_Type`, `Page_Number`; this extractor
emits no `Transaction_ID`).  All amount fields stay the strings built by
the source (`"0.00"` defaults or comma-stripped tokens); `S.No` is
`str(serial_number)`, kept as the number itself. -/
structure Txn where
  sNo : Nat
  date : List Char
  remarks : List Char
  debit : List Char
  credit : List Char
  balance : List Char
  transactionType : List Char
  pageNumber : Nat
deriving DecidableEq

/-- Default transaction used only to discharge impossible `Option` cases
in theorem statements. -/
def defaultTxn : Txn :=
  { sNo := 0, date := [], remarks := [], debit := [], credit := [],
    balance := [], transactionType := [], pageNumber := 0 }

/-- Anchor test `re.match(r'^\d{2}-\d{2}-\d{4}', line)`. -/
def startsWithDateDMY (line : List Char) : Bool :=
  (APGVB.matchDateDDMMYYYY line).isSome

/-- Header keyword filter of `_extract_transactions_from_page`. -/
def headerSkip (line : List Char) : Bool :=
  ["Date".data, "Particulars".data, "Deposits".data, "Withdrawals".data,
   "Balance".data].any (fun k => containsSub k line)

/-- The `while` loop of `_combine_transaction_lines`: gather stripped
lines until a `Chq:` line (whose following line holds the amounts) or,
past the first line, the next date anchor (not consumed). -/
def combineAux (fuel : Nat) (first : Bool) (lines : List (List Char))
    (acc : List (List Char)) : List (List Char) × List Char :=
  match fuel, lines with
  | 0, _ => (acc.reverse, [])
  | _, [] => (acc.reverse, [])
  | f + 1, l :: rest =>
    let line := trimChars l
    if line.isEmpty then combineAux f false rest acc
    else if startsWithChars ("Chq:".data) line then
      ((line :: acc).reverse,
        match rest with
        | [] => []
        | n :: _ => trimChars n)
    else if !first && startsWithDateDMY line then (acc.reverse, [])
    else combineAux f false rest (line :: acc)

/-- Python `" ".join(...)`. -/
def joinSpace : List (List Char) → List Char
  | [] => []
  | [w] => w
  | w :: ws => w ++ ' ' :: joinSpace ws

/-- `_combine_transaction_lines`, starting at the anchor line: returns
the space-joined combined text and the amounts line. -/
def combineTransactionLines (lines : List (List Char)) : List Char × List Char :=
  let res := combineAux lines.length true lines []
  (joinSpace res.1, res.2)

/-- The numeric-value filter of `_parse_combined_transaction`: keep the
whitespace-separated parts that contain a '.' and are digits once commas
and dots are removed; the kept value has its commas stripped. -/
def numericValues (amountsLine : List Char) : List (List Char) :=
  (pySplitWs amountsLine).filterMap (fun part =>
    if containsSub ['.'] part &&
       (let d := part.filter (fun c => c ≠ ',' && c ≠ '.')
        !d.isEmpty && d.all Char.isDigit) then
      some (part.filter (fun c => c ≠ ','))
    else none)

/-- Amount and balance strings from the amounts line: two values mean
(amount, balance), a single value is the balance, defaults are "0.00". -/
def amountBalance (amountsLine : List Char) : List Char × List Char :=
  if amountsLine.isEmpty then ("0.00".data, "0.00".data)
  else
    match numericValues amountsLine with
    | a :: b :: _ => (a, b)
    | [b] => ("0.00".data, b)
    | [] => ("0.00".data, "0.00".data)

/-- `_parse_combined_transaction`: date from the first word (validated by
length and dash count), type from a literal `/DR/` in the combined text
(default `Credit`), particulars from the text after the date. -/
def parseCombinedTransaction (combinedText amountsLine : List Char)
    (pageNum serialNumber : Nat) : Option Txn :=
  match pySplitWs combinedText with
  | [] => none
  | date :: _ =>
    if !(date.length = 10 && (date.filter (· = '-')).length = 2) then none
    else
      let ab := amountBalance amountsLine
      let dr := containsSub ("/DR/".data) combinedText
      let particulars := trimChars (combinedText.drop (date.length + 1))
      some
        { sNo := serialNumber
          date := date
          remarks := particulars
          debit := if dr then ab.1 else []
          credit := if dr then [] else ab.1
          balance := ab.2
          transactionType := if dr then "Debit".data else "Credit".data
          pageNumber := pageNum }

/-- The `while` loop of `_extract_transactions_from_page`: headers and
the opening-balance line are skipped, a date anchor starts a combined
transaction, and the scan resumes at the next date anchor
(`_find_next_transaction_start`).  The per-page serial counter starts at
1 for each page. -/
def pageLoop (fuel counter pageNum : Nat) : List (List Char) → List Txn
  | [] => []
  | l :: rest =>
    match fuel with
    | 0 => []
    | f + 1 =>
      let line := trimChars l
      if headerSkip line then pageLoop f counter pageNum rest
      else if startsWithChars ("Opening Balance".data) line then
        pageLoop f counter pageNum rest
      else if startsWithDateDMY line then
        let ca := combineTransactionLines (l :: rest)
        let rest2 := rest.dropWhile (fun x => !startsWithDateDMY (trimChars x))
        match parseCombinedTransaction ca.1 ca.2 pageNum counter with
        | some t => t :: pageLoop f (counter + 1) pageNum rest2
        | none => pageLoop f counter pageNum rest2
      else pageLoop f counter pageNum rest

/-- `_extract_transactions_from_page` (its `opening_balance` parameter is
never used by the source body and is omitted). -/
def extractTransactionsFromPage (pageText : List Char) (pageNum : Nat) : List Txn :=
  let lines := splitOnChar '\n' pageText
  pageLoop lines.length 1 pageNum lines

/-- The page loop of `_extract_all_transactions`: empty page texts are
skipped; each page is parsed with its own counter (see
`extractTransactionsFromPage`).  The source would raise on a zero-page
document when reading the first page; the claims never evaluate that
case. -/
def extractAllTransactionsAux (pageNum : Nat) : List (List Char) → List Txn
  | [] => []
  | p :: ps =>
    (if p.isEmpty then [] else extractTransactionsFromPage p pageNum)
      ++ extractAllTransactionsAux (pageNum + 1) ps

/-- `_extract_all_transactions` (page numbers start at 1). -/
def extractAllTransactions (pages : List (List Char)) : List Txn :=
  extractAllTransactionsAux 1 pages

/-- `datetime.strptime(date, '%d-%m-%Y')` as an order key: day, month
and year fields with basic range validation; `none` when parsing would
raise. -/
def parseDateKey (d : List Char) : Option (Nat × Nat × Nat) :=
  match splitOnChar '-' d with
  | [dd, mm, yyyy] =>
    if !dd.isEmpty && dd.all Char.isDigit && !mm.isEmpty && mm.all Char.isDigit &&
       !yyyy.isEmpty && yyyy.all Char.isDigit then
      let dv := digitsToNat dd
      let mv := digitsToNat mm
      if 1 ≤ dv && dv ≤ 31 && 1 ≤ mv && mv ≤ 12 then
        some (digitsToNat yyyy, mv, dv)
      else none
    else none
  | _ => none

/-- Non-strict lexicographic order on (year, month, day) keys. -/
def keyLE (a b : Nat × Nat × Nat) : Bool :=
  a.1 < b.1 || (a.1 = b.1 && (a.2.1 < b.2.1 || (a.2.1 = b.2.1 && a.2.2 ≤ b.2.2)))

/-- Stable insertion used by `sortByDate`: an element goes after every
earlier element with a key ≤ its own. -/
def insertSorted (p : (Nat × Nat × Nat) × Txn) :
    List ((Nat × Nat × Nat) × Txn) → List ((Nat × Nat × Nat) × Txn)
  | [] => [p]
  | q :: qs => if keyLE q.1 p.1 then q :: insertSorted p qs else p :: q :: qs

/-- `sorted(transactions, key=...strptime...)`: a stable sort by parsed
date (stable sorts by the same key agree, so insertion sort matches the
source's Timsort); `none` when some date does not parse (`strptime`
raises). -/
def sortByDate (txns : List Txn) : Option (List Txn) :=
  match txns.mapM (fun t => (parseDateKey t.date).map (fun k => (k, t))) with
  | none => none
  | some pairs => some ((pairs.foldl (fun acc p => insertSorted p acc) []).map (·.2))

/-- Balance-string conversion used by the summary:
`float(balance.replace(',', '')) if balance else 0.0`. -/
def balanceVal (t : Txn) : Money :=
  if t.balance.isEmpty then 0 else pyFloatOfChars t.balance

/-- `_calculate_financial_summary`: `Except.error` models the `strptime`
exception escaping on an unparseable date, `.ok none` the literal `{}`
for an empty list.  Note the source reads the *opening* balance from the
chronologically last transaction and the *closing* balance from the
chronologically first one. -/
def calculateFinancialSummary (txns : List Txn) :
    Except (List Char) (Option FinancialSummary) :=
  match txns with
  | [] => .ok none
  | t0 :: ts =>
    match sortByDate (t0 :: ts) with
    | none => .error ("strptime: time data does not match format".data)
    | some sorted =>
      let firstTxn := sorted.head?.getD defaultTxn
      let lastTxn := (sorted.getLast?).getD defaultTxn
      let openingBalance := balanceVal lastTxn
      let closingBalance := balanceVal firstTxn
      let totalDebits := (t0 :: ts).foldl (fun a t =>
        if !t.debit.isEmpty then a + pyFloatOfChars t.debit else a) 0
      let totalCredits := (t0 :: ts).foldl (fun a t =>
        if !t.credit.isEmpty then a + pyFloatOfChars t.credit else a) 0
      let dates := (t0 :: ts).map (·.date)
      .ok (some
        { openingBalance := openingBalance
          closingBalance := closingBalance
          totalDebits := totalDebits
          totalCredits := totalCredits
          netChange := totalCredits - totalDebits
          transactionCount := (t0 :: ts).length
          dateFrom := minChars? dates
          dateTo := maxChars? dates })

end Canara

namespace Union

/-- One Union Bank transaction dict: the source emits `S.No`, `Date`,
`Transaction_ID`, `Remarks`, `Amount`, `Balance`, `Amount_Numeric`,
`Balance_Numeric`, `Transaction_Type` and `Page_Number` — there are no
`Debit`/`Credit` fields in this extractor's records. -/
structure Txn where
  sNo : List Char
  date : List Char
  transactionId : List Char
  remarks : List Char
  amount : List Char
  balance : List Char
  amountNumeric : Money
  balanceNumeric : Money
  transactionType : List Char
  pageNumber : Nat
deriving DecidableEq

/-- The dict keys of a Union Bank transaction record, in source order
(`_parse_transaction_line`, lines 342-353). -/
def transactionFields : List (List Char) :=
  ["S.No".data, "Date".data, "Transaction_ID".data, "Remarks".data,
   "Amount".data, "Balance".data, "Amount_Numeric".data, "Balance_Numeric".data,
   "Transaction_Type".data, "Page_Number".data]

/-- Exactly `n` digit characters. -/
def matchDigitsN : Nat → List Char → Option (List Char × List Char)
  | 0, cs => some ([], cs)
  | _ + 1, [] => none
  | n + 1, c :: cs =>
    if c.isDigit then (matchDigitsN n cs).map (fun dr => (c :: dr.1, dr.2))
    else none

/-- A literal '/' character. -/
def matchSlash : List Char → Option (List Char)
  | '/' :: r => some r
  | _ => none

/-- The `\d{1,2}/\d{4}` tail of a slash date, month width `mk`. -/
def matchSlashDateM (mk : Nat) (d : List Char) (r2 : List Char) :
    Option (List Char × List Char) := do
  let mr ← matchDigitsN mk r2
  let r4 ← matchSlash mr.2
  let yr ← matchDigitsN 4 r4
  pure (d ++ '/' :: (mr.1 ++ '/' :: yr.1), yr.2)

/-- A slash date with day width `dk`. -/
def matchSlashDateD (dk : Nat) (cs : List Char) : Option (List Char × List Char) := do
  let dr ← matchDigitsN dk cs
  let r2 ← matchSlash dr.2
  (matchSlashDateM 2 dr.1 r2) <|> (matchSlashDateM 1 dr.1 r2)

/-- `\d{1,2}/\d{1,2}/\d{4}` with the greedy (longest-first) choice of
widths; the '/' separators make the width choices mutually exclusive, so
this equals the regex with full backtracking. -/
def matchSlashDate (cs : List Char) : Option (List Char × List Char) :=
  (matchSlashDateD 2 cs) <|> (matchSlashDateD 1 cs)

/-- Character class `[A-Z0-9]`. -/
def isUpperDigit (c : Char) : Bool := ('A' ≤ c && c ≤ 'Z') || c.isDigit

/-- The anchor regex `^(\d+)\s+(\d{1,2}/\d{1,2}/\d{4})\s+([A-Z0-9]+)`:
serial number, date and transaction id. -/
def matchAnchor (cs : List Char) : Option (List Char × List Char × List Char) :=
  let sno := cs.takeWhile Char.isDigit
  let r1 := cs.dropWhile Char.isDigit
  if sno.isEmpty then none
  else if (r1.takeWhile isWsC).isEmpty then none
  else
    match matchSlashDate (r1.dropWhile isWsC) with
    | none => none
    | some (date, r3) =>
      if (r3.takeWhile isWsC).isEmpty then none
      else
        let r4 := r3.dropWhile isWsC
        let tid := r4.takeWhile isUpperDigit
        if tid.isEmpty then none else some (sno, date, tid)

/-- Anchor-prefix test `^\d+\s+\d{1,2}/\d{1,2}/\d{4}` used by the
line-combining loop. -/
def anchorPrefixTest (cs : List Char) : Bool :=
  let sno := cs.takeWhile Char.isDigit
  let r1 := cs.dropWhile Char.isDigit
  !sno.isEmpty && !(r1.takeWhile isWsC).isEmpty &&
    (matchSlashDate (r1.dropWhile isWsC)).isSome

/-- Match `(\d+\.?\d*)\s*\((Dr|Cr)\)` at the head of the input: number
characters, a `Cr` flag and the rest after the match. -/
def matchAmountTagAt (cs : List Char) : Option ((List Char × Bool) × List Char) :=
  let d1 := cs.takeWhile Char.isDigit
  let r1 := cs.dropWhile Char.isDigit
  if d1.isEmpty then none
  else
    let nr : List Char × List Char :=
      match r1 with
      | '.' :: r => (d1 ++ '.' :: r.takeWhile Char.isDigit, r.dropWhile Char.isDigit)
      | _ => (d1, r1)
    match nr.2.dropWhile isWsC with
    | '(' :: 'D' :: 'r' :: ')' :: rest => some ((nr.1, false), rest)
    | '(' :: 'C' :: 'r' :: ')' :: rest => some ((nr.1, true), rest)
    | _ => none

/-- `re.findall` of the tagged-amount pattern, left to right and
non-overlapping.  `fuel` bounds the recursion (callers pass the input
length). -/
def findallAmountTags : Nat → List Char → List (List Char × Bool)
  | 0, _ => []
  | _, [] => []
  | fuel + 1, c :: cs =>
    match matchAmountTagAt (c :: cs) with
    | some (m, rest) => m :: findallAmountTags fuel rest
    | none => findallAmountTags fuel cs

/-- The `while` loop of `_combine_transaction_lines`: append stripped
continuation lines until the combined line holds two tagged amounts, a
new anchor line appears, or an empty line / end of page is reached. -/
def combineLoop (fuel : Nat) (combined : List Char) :
    List (List Char) → List Char
  | [] => combined
  | n :: ns =>
    match fuel with
    | 0 => combined
    | f + 1 =>
      if (findallAmountTags combined.length combined).length < 2 then
        let next := trimChars n
        if !next.isEmpty && !anchorPrefixTest next then
          combineLoop f (combined ++ ' ' :: next) ns
        else combined
      else combined

/-- `_combine_transaction_lines` from the stripped anchor line. -/
def combineTransactionLines (line : List Char) (rest : List (List Char)) :
    List Char :=
  combineLoop rest.length line rest

/-- Render `f"{value} ({tag})"`. -/
def taggedRepr (v : List Char) (isCr : Bool) : List Char :=
  v ++ ' ' :: '(' :: (if isCr then "Cr".data else "Dr".data) ++ [')']

/-- `_parse_transaction_line`: anchor groups, all tagged amounts (first
is the transaction amount, last the balance), remarks between the
transaction id and the first tagged amount, and signed numeric values
(`Dr` negative). -/
def parseTransactionLine (line : List Char) (pageNum : Nat) : Option Txn :=
  match matchAnchor line with
  | none => none
  | some (sno, date, tid) =>
    let ms := findallAmountTags line.length line
    if ms.length < 2 then none
    else
      let firstM := ms.head?.getD ([], false)
      let lastM := ms.getLast?.getD ([], false)
      let amountRepr := taggedRepr firstM.1 firstM.2
      let remarksStart := (findSub tid line).getD 0 + tid.length
      let remarksEnd := match findSub amountRepr line with
        | some k => k
        | none => line.length - 1
      let amountNum := pyFloatOfChars firstM.1
      let balanceNum := pyFloatOfChars lastM.1
      some
        { sNo := sno
          date := date
          transactionId := tid
          remarks := trimChars ((line.take remarksEnd).drop remarksStart)
          amount := amountRepr
          balance := taggedRepr lastM.1 lastM.2
          amountNumeric := if firstM.2 then amountNum else -amountNum
          balanceNumeric := if lastM.2 then balanceNum else -balanceNum
          transactionType := if firstM.2 then "Credit".data else "Debit".data
          pageNumber := pageNum }

/-- The `for` loop of `_extract_transactions_from_page`: the header line
is skipped, each anchor line is combined with its continuation lines and
parsed; the loop itself advances one line at a time. -/
def pageLoop (pageNum : Nat) : List (List Char) → List Txn
  | [] => []
  | l :: rest =>
    let line := trimChars l
    if containsSub ("S.No".data) line && containsSub ("Date".data) line &&
       containsSub ("Transaction Id".data) line then pageLoop pageNum rest
    else
      match matchAnchor line with
      | some _ =>
        let combined := combineTransactionLines line rest
        (match parseTransactionLine combined pageNum with
         | some t => [t]
         | none => []) ++ pageLoop pageNum rest
      | none => pageLoop pageNum rest

/-- `_extract_transactions_from_page`. -/
def extractTransactionsFromPage (pageText : List Char) (pageNum : Nat) : List Txn :=
  pageLoop pageNum (splitOnChar '\n' pageText)

/-- The page loop of `_extract_all_transactions`: empty page texts are
skipped, page numbers start at 1. -/
def extractAllTransactionsAux (pageNum : Nat) : List (List Char) → List Txn
  | [] => []
  | p :: ps =>
    (if p.isEmpty then [] else extractTransactionsFromPage p pageNum)
      ++ extractAllTransactionsAux (pageNum + 1) ps

/-- `_extract_all_transactions`. -/
def extractAllTransactions (pages : List (List Char)) : List Txn :=
  extractAllTransactionsAux 1 pages

/-- `_calculate_financial_summary`: opening balance from the *last*
record in extraction order, closing balance from the *first* (the source
treats the statement as newest-first); totals from the signed numeric
amounts, so `total_debits` is a non-positive sum and
`net_change = total_credits + total_debits`. -/
def calculateFinancialSummary (txns : List Txn) : Option FinancialSummary :=
  match txns with
  | [] => none
  | t0 :: ts =>
    let openingBalance := ((t0 :: ts).getLast (List.cons_ne_nil t0 ts)).balanceNumeric
    let closingBalance := t0.balanceNumeric
    let totalDebits := (t0 :: ts).foldl (fun a t =>
      if t.amountNumeric < 0 then a + t.amountNumeric else a) 0
    let totalCredits := (t0 :: ts).foldl (fun a t =>
      if 0 < t.amountNumeric then a + t.amountNumeric else a) 0
    let dates := (t0 :: ts).map (·.date)
    some
      { openingBalance := openingBalance
        closingBalance := closingBalance
        totalDebits := totalDebits
        totalCredits := totalCredits
        netChange := totalCredits + totalDebits
        transactionCount := (t0 :: ts).length
        dateFrom := minChars? dates
        dateTo := maxChars? dates }

/-- Error message of the inline decryption when `password` is falsy. -/
def noPasswordMsg : List Char :=
  "Union Bank PDF is encrypted but no password provided".data

/-- Error message of the inline decryption when both variants fail. -/
def badPasswordMsg : List Char :=
  "Failed to decrypt Union Bank PDF with provided password".data

/-- The inline decryption block of `extract_complete_statement`
(lines 55-74): original password first, then the stripped variant when
it differs. -/
def decryptPdf (pdf : Pdf) (password : Option (List Char)) :
    Except (List Char) Unit :=
  match password with
  | none => .error noPasswordMsg
  | some [] => .error noPasswordMsg
  | some p =>
    if pdf.accepts p then .ok ()
    else
      let trimmed := trimChars p
      if trimmed ≠ p then
        if pdf.accepts trimmed then .ok () else .error badPasswordMsg
      else .error badPasswordMsg

/-- Result dict of `extract_complete_statement` (timestamp elided; the
metadata dict of this extractor carries only best-effort header strings
that no claim inspects, and is not modelled). -/
structure Result where
  totalTransactions : Nat
  financialSummary : Option FinancialSummary
  transactions : List Txn
deriving DecidableEq

/-- `extract_complete_statement`: decryption when encrypted, then
metadata (reading the first page raises `IndexError` on a zero-page
document, modelled as an error), transactions and summary. -/
def extractCompleteStatement (pdf : Pdf) (password : Option (List Char)) :
    Except (List Char) Result :=
  match (if pdf.isEncrypted then decryptPdf pdf password else .ok ()) with
  | .error e => .error e
  | .ok () =>
    match pdf.pages with
    | [] => .error ("IndexError: list index out of range".data)
    | _ :: _ =>
      let txns := extractAllTransactions pdf.pages
      .ok
        { totalTransactions := txns.length
          financialSummary := calculateFinancialSummary txns
          transactions := txns }

end Union

/-! Concrete documents used by the concrete theorems below. -/

/-- APGVB document with four transactions whose running balances follow
1000 → 1500 → 1200 → 1800 from a fresh accumulator. -/
def pdfSeq : Pdf :=
  { isEncrypted := false
    accepts := fun _ => false
    pages := [("CUSTOMER ACCOUNT LEDGER REPORT\n"
      ++ "01-04-2024 01-04-2024 BY CASH 1000.00 1000.00Cr U1 U2\n"
      ++ "02-04-2024 02-04-2024 UPI/C/REF1/SHOP 500.00 1500.00Cr U1 U2\n"
      ++ "03-04-2024 03-04-2024 CHQ FEE 300.00 1200.00Cr U1 U2\n"
      ++ "04-04-2024 04-04-2024 BY CASH 600.00 1800.00Cr U1 U2").data] }

/-- APGVB document whose header states opening balance 1000 while the
single transaction carries running balance 500. -/
def pdfOpen : Pdf :=
  { isEncrypted := false
    accepts := fun _ => false
    pages := [("CUSTOMER ACCOUNT LEDGER REPORT\n"
      ++ "Opening Balance : 1000\n"
      ++ "01-04-2024 01-04-2024 BY CASH 500.00 500.00Cr U1 U2").data] }

/-- APGVB document with two transactions whose running balances are
1000 then 1800 (its final balance exceeds its first balance, exposing
the accumulator leak between calls). -/
def pdfLeak : Pdf :=
  { isEncrypted := false
    accepts := fun _ => false
    pages := [("CUSTOMER ACCOUNT LEDGER REPORT\n"
      ++ "01-04-2024 01-04-2024 BY CASH 1000.00 1000.00Cr U1 U2\n"
      ++ "02-04-2024 02-04-2024 BY CASH 800.00 1800.00Cr U1 U2").data] }

/-- APGVB document with a valid header and no transaction lines. -/
def pdfEmpty : Pdf :=
  { isEncrypted := false
    accepts := fun _ => false
    pages := [("CUSTOMER ACCOUNT LEDGER REPORT").data] }

/-- Encrypted document accepting exactly the password "secret". -/
def pdfLocked : Pdf :=
  { isEncrypted := true
    accepts := fun p => p == "secret".data
    pages := [("CUSTOMER ACCOUNT LEDGER REPORT").data] }

/-- First page of a two-page Canara Bank statement, one transaction. -/
def canaraPage1 : List Char :=
  ("Canara Bank Statement\n01-01-2024 PAYMENT/DR/SHOP\nChq: 111\n100.00 900.00").data

/-- Second page of a two-page Canara Bank statement, one transaction. -/
def canaraPage2 : List Char :=
  ("Canara Bank Statement\n02-01-2024 PAYMENT/DR/SHOP\nChq: 222\n50.00 850.00").data

/-- Canara Bank page with two transactions in ascending date order whose
running balances are 900.00 then 1100.00. -/
def canaraPageAsc : List Char :=
  ("Canara Bank Statement\n01-01-2024 PAYMENT/DR/SHOP\nChq: 111\n100.00 900.00\n"
    ++ "02-01-2024 NEFT CREDIT\nChq: 222\n200.00 1100.00").data

/-- The transactions extracted from `canaraPageAsc`. -/
def canaraAscTxns : List Canara.Txn :=
  Canara.extractTransactionsFromPage canaraPageAsc 1

/-- Union Bank page with one debit and one credit transaction. -/
def unionPage : List Char :=
  ("S.No Date Transaction Id Remarks Amount(Rs.) Balance(Rs.)\n"
    ++ "2 02/04/2024 TXN456 ATM WDL 300.00 (Dr) 2200.00 (Cr)\n"
    ++ "1 01/04/2024 TXN123 UPI PAYMENT 500.00 (Cr) 2500.00 (Cr)").data

set_option maxRecDepth 16000

/-- C1: the balance-delta strategy classifies a transaction as a credit
of the extracted amount when the current balance exceeds the previous
balance, as a debit when it is below, and defaults to credit on
equality, always moving the accumulator to the current balance; and on
the synthetic document with running balances 1000 → 1500 → 1200 → 1800
the classifications are Credit, [Credit, Debit, Credit] and the summary
reports closing balance 1800. -/
theorem claim1_balance_delta_classification :
    (∀ (prev amt cur : Money) (off : Nat),
      (cur > prev →
        APGVB.determineTransactionType prev amt cur off
          = ({ debit := none, credit := some amt, balance := cur, offset := off }, cur)) ∧
      (cur < prev →
        APGVB.determineTransactionType prev amt cur off
          = ({ debit := some amt, credit := none, balance := cur, offset := off }, cur)) ∧
      (cur = prev →
        APGVB.determineTransactionType prev amt cur off
          = ({ debit := none, credit := some amt, balance := cur, offset := off }, cur))) ∧
    ((APGVB.extractCompleteStatement none pdfSeq none).1.toOption.map (fun r =>
        (r.transactions.map (fun t => t.transactionType),
         r.financialSummary.map (fun s => s.closingBalance))))
      = some (["Credit".data, "Credit".data, "Debit".data, "Credit".data],
              some (moneyOfNat 1800)) := by
  refine ⟨fun prev amt cur off => ⟨?_, ?_, ?_⟩, by decide⟩
  · intro h
    have hc : cur - prev > 0 := by simp only [Money] at *; omega
    simp [APGVB.determineTransactionType, hc]
  · intro h
    have hc : ¬ cur - prev > 0 := by simp only [Money] at *; omega
    have hc2 : cur - prev < 0 := by simp only [Money] at *; omega
    simp [APGVB.determineTransactionType, hc, hc2]
  · intro h
    have hc : ¬ cur - prev > 0 := by simp only [Money] at *; omega
    have hc2 : ¬ cur - prev < 0 := by simp only [Money] at *; omega
    simp [APGVB.determineTransactionType, hc, hc2]

/-- Witness for C1 at a concrete input: previous balance 1000, amount
500, current balance 1500 is classified Credit. -/
theorem claim1_witness :
    APGVB.determineTransactionType 1000 500 1500 0
      = ({ debit := none, credit := some 500, balance := 1500, offset := 0 }, 1500) :=
  (claim1_balance_delta_classification.1 1000 500 1500 0).1 (by decide)

/-- Counterexample to C2: on `pdfOpen` the header's opening balance is
recovered as 1000 while the first (and only) transaction, at running
balance 500 < 1000, is classified Credit — so the first transaction is
compared against 0, not against the statement's opening balance (which
would make it a Debit). -/
theorem claim2_counterexample :
    ((APGVB.extractCompleteStatement none pdfOpen none).1.toOption.map (fun r =>
        (r.statementMetadata.openingBalance,
         r.transactions.map (fun t => (t.balance, t.transactionType)))))
      = some (some (moneyOfNat 1000), [(moneyOfNat 500, "Credit".data)])
    ∧ moneyOfNat 500 < moneyOfNat 1000 := by
  exact ⟨by decide, by decide⟩

/-- Counterexample to C3: a two-page Canara Bank statement with one
transaction per page yields the serial numbers 1, 1 — the counter is
reset on each page, so the statement's S.No values are not the
contiguous sequence 1, 2. -/
theorem claim3_counterexample :
    ((Canara.extractAllTransactions [canaraPage1, canaraPage2]).map
        (fun t => (t.sNo, t.pageNumber))) = [(1, 1), (1, 2)]
    ∧ ((Canara.extractAllTransactions [canaraPage1, canaraPage2]).map
        (fun t => t.sNo)) ≠ [1, 2] := by
  exact ⟨by decide, by decide⟩

/-- C4 is right and the code is wrong: running `extract_complete_statement`
twice on the same instance and the same document `pdfLeak` classifies the
first transaction Credit on the first call but Debit on the second,
because `_previous_balance` (1800 after the first call) is never reset
— contradicting the source's own documentation that the first
transaction uses 0.0 as the previous balance. -/
theorem claim4_state_leak_between_calls :
    (((APGVB.extractCompleteStatement none pdfLeak none).1.toOption.map (fun r =>
        r.transactions.map (fun t => t.transactionType))),
     ((APGVB.extractCompleteStatement
          (APGVB.extractCompleteStatement none pdfLeak none).2 pdfLeak none).1.toOption.map
        (fun r => r.transactions.map (fun t => t.transactionType))))
      = (some ["Credit".data, "Credit".data], some ["Debit".data, "Credit".data])
    ∧ ((APGVB.extractCompleteStatement none pdfLeak none).1.toOption.map
          (fun r => r.transactions))
        ≠ ((APGVB.extractCompleteStatement
              (APGVB.extractCompleteStatement none pdfLeak none).2 pdfLeak none).1.toOption.map
            (fun r => r.transactions)) := by
  exact ⟨by decide, by decide⟩

/-- Counterexample to C5: the Union Bank extractor emits transaction
records (here two of them, from `unionPage`) whose dicts carry no
`Debit` and no `Credit` field at all — the claim's invariant does not
even type-check against this extractor's records. -/
theorem claim5_counterexample :
    (Union.extractTransactionsFromPage unionPage 1).length = 2
    ∧ ¬ ("Debit".data ∈ Union.transactionFields)
    ∧ ¬ ("Credit".data ∈ Union.transactionFields) := by
  exact ⟨by decide, by decide, by decide⟩

/-- Counterexample to C6: on `canaraPageAsc` the chronologically last
transaction (02-01-2024) carries balance 1100.00, but the Canara summary
reports closing balance 900.00 — the balance of the chronologically
*first* transaction (the source swaps opening and closing). -/
theorem claim6_counterexample :
    (canaraAscTxns.map (fun t => (t.date, t.balance))
      = [("01-01-2024".data, "900.00".data), ("02-01-2024".data, "1100.00".data)])
    ∧ ((Canara.calculateFinancialSummary canaraAscTxns).toOption.map (fun os =>
          os.map (fun s => (s.openingBalance, s.closingBalance)))
        = some (some (moneyOfNat 1100, moneyOfNat 900)))
    ∧ moneyOfNat 900 ≠ moneyOfNat 1100 := by
  exact ⟨by decide, by decide, by decide⟩

/-- Counterexample to C7: for a document with a valid header and zero
transaction lines the extraction returns `total_transactions == 0`
together with the literal empty dict `{}` as the financial summary
(modelled by `none`) — no fields are present, so the summary is not the
claimed well-typed all-zero record. -/
theorem claim7_counterexample :
    ((APGVB.extractCompleteStatement none pdfEmpty none).1.toOption.map (fun r =>
        (r.totalTransactions, r.financialSummary))) = some (0, none) := by
  decide

/-- The amended C6: no extractor reports the chronologically-last
balance after sorting.  APGVB takes the closing balance from the last
transaction in extraction order without sorting; Union Bank takes it
from the first transaction in extraction order; Canara sorts by parsed
date but then reports the chronologically *first* transaction's balance
as closing (and the chronologically last one's as opening). -/
theorem claim6_amended_closing_balance :
    (∀ (m : APGVB.StatementMetadata) (txns : List APGVB.Txn),
      (APGVB.calculateFinancialSummary m txns).map (fun s => s.closingBalance)
        = txns.getLast?.map (fun t => t.balance)) ∧
    (∀ txns : List Union.Txn,
      (Union.calculateFinancialSummary txns).map (fun s => s.closingBalance)
        = txns.head?.map (fun t => t.balanceNumeric)) ∧
    (∀ (txns sorted : List Canara.Txn), txns ≠ [] →
      Canara.sortByDate txns = some sorted →
      ((Canara.calculateFinancialSummary txns).toOption.map (fun os =>
          os.map (fun s => (s.openingBalance, s.closingBalance))))
        = some (some (Canara.balanceVal (sorted.getLast?.getD Canara.defaultTxn),
                      Canara.balanceVal (sorted.head?.getD Canara.defaultTxn)))) := by
  refine ⟨?_, ?_, ?_⟩
  · intro m txns
    cases txns with
    | nil => simp [APGVB.calculateFinancialSummary]
    | cons t0 ts =>
      simp [APGVB.calculateFinancialSummary,
        List.getLast?_eq_getLast (t0 :: ts) (List.cons_ne_nil t0 ts)]
  · intro txns
    cases txns with
    | nil => simp [Union.calculateFinancialSummary]
    | cons t0 ts => simp [Union.calculateFinancialSummary]
  · intro txns sorted hne hsort
    cases txns with
    | nil => exact absurd rfl hne
    | cons t0 ts =>
      simp [Canara.calculateFinancialSummary, hsort, Except.toOption]

/-- Witness for the amended C6 at a concrete input: the Canara summary
of `canaraPageAsc` reports the sorted list's first balance as closing
and its last balance as opening. -/
theorem claim6_amended_witness :
    ((Canara.calculateFinancialSummary canaraAscTxns).toOption.map (fun os =>
        os.map (fun s => (s.openingBalance, s.closingBalance))))
      = some (some
          (Canara.balanceVal
            (((Canara.sortByDate canaraAscTxns).getD []).getLast?.getD Canara.defaultTxn),
           Canara.balanceVal
            (((Canara.sortByDate canaraAscTxns).getD []).head?.getD Canara.defaultTxn))) :=
  claim6_amended_closing_balance.2.2 canaraAscTxns
    ((Canara.sortByDate canaraAscTxns).getD []) (by decide) (by decide)

/-- The amended C7: an empty transaction list yields
`total_transactions == 0` and the literal empty dict `{}` as financial
summary (no fields at all), and the empty case never raises. -/
theorem claim7_amended_empty_statement :
    (∀ m : APGVB.StatementMetadata, APGVB.calculateFinancialSummary m [] = none) ∧
    Canara.calculateFinancialSummary [] = Except.ok none ∧
    Union.calculateFinancialSummary [] = none ∧
    (∀ (st : Option Money) (pdf : Pdf) (pw : Option (List Char)) (r : APGVB.Result),
      (APGVB.extractCompleteStatement st pdf pw).1.toOption = some r →
      r.totalTransactions = r.transactions.length ∧
        (r.transactions = [] → r.financialSummary = none)) := by
  refine ⟨fun m => rfl, rfl, rfl, ?_⟩
  intro st pdf pw r h
  unfold APGVB.extractCompleteStatement at h
  split at h
  · exact absurd h (by simp [Except.toOption])
  · split at h
    · exact absurd h (by simp [Except.toOption])
    · simp only [Except.toOption] at h
      injection h with h
      subst h
      refine ⟨rfl, fun he => ?_⟩
      simp only at he ⊢
      rw [he]
      rfl

/-- Witness for the amended C7 at a concrete input: the header-only
document `pdfEmpty` yields zero transactions and the empty summary. -/
theorem claim7_amended_witness :
    ((APGVB.extractCompleteStatement none pdfEmpty none).1.toOption.getD
        { totalTransactions := 1, statementMetadata := { openingBalance := none },
          financialSummary := none, transactions := [] }).totalTransactions
      = ((APGVB.extractCompleteStatement none pdfEmpty none).1.toOption.getD
        { totalTransactions := 1, statementMetadata := { openingBalance := none },
          financialSummary := none, transactions := [] }).transactions.length
    ∧ (((APGVB.extractCompleteStatement none pdfEmpty none).1.toOption.getD
        { totalTransactions := 1, statementMetadata := { openingBalance := none },
          financialSummary := none, transactions := [] }).transactions = [] →
       ((APGVB.extractCompleteStatement none pdfEmpty none).1.toOption.getD
        { totalTransactions := 1, statementMetadata := { openingBalance := none },
          financialSummary := none, transactions := [] }).financialSummary = none) :=
  claim7_amended_empty_statement.2.2.2 none pdfEmpty none
    ((APGVB.extractCompleteStatement none pdfEmpty none).1.toOption.getD
        { totalTransactions := 1, statementMetadata := { openingBalance := none },
          financialSummary := none, transactions := [] })
    (by decide)

/-- Every parsed monetary value is non-negative (the scanners only feed
digit/comma/dot characters to `float`). -/
theorem pyFloatOfChars_nonneg (cs : List Char) : 0 ≤ pyFloatOfChars cs := by
  unfold pyFloatOfChars
  have h1 : (0 : Int) ≤ (10 : Int) ^ moneyScale := by positivity
  have h2 : (0 : Int) ≤ (10 : Int) ^ (moneyScale -
      (((((cs.filter (fun c => c ≠ ',')).dropWhile (fun c => c ≠ '.')).drop 1).take
        moneyScale)).length) := by positivity
  exact add_nonneg (mul_nonneg (Int.natCast_nonneg _) h1)
    (mul_nonneg (Int.natCast_nonneg _) h2)

/-- A balance extracted from a line is non-negative. -/
theorem extractBalanceFromLine_nonneg (line : List Char) (cur : Money)
    (before : List Char) (h : APGVB.extractBalanceFromLine line = some (cur, before)) :
    0 ≤ cur := by
  unfold APGVB.extractBalanceFromLine at h
  split at h
  · exact absurd h (by simp)
  · injection h with h
    obtain ⟨h1, h2⟩ := Prod.mk.injEq .. |>.mp h
    exact h1 ▸ pyFloatOfChars_nonneg _

/-- With previous balance 0 a non-negative current balance is always
classified as a credit. -/
theorem determine_credit_of_nonneg (amt cur : Money) (off : Nat) (h : 0 ≤ cur) :
    ((APGVB.determineTransactionType 0 amt cur off).1).credit = some amt := by
  unfold APGVB.determineTransactionType
  by_cases h2 : (0 : Money) < cur
  · simp [h2, sub_zero]
  · have h3 : ¬ cur < 0 := not_lt.mpr h
    simp [h2, h3, sub_zero]

/-- The offset loop run with previous balance 0 only ever classifies a
credit (parsed balances are non-negative). -/
theorem extractAmountsLoop_zero_credit :
    ∀ (ls : List (List Char)) (off : Nat) (info : APGVB.AmountsInfo) (st2 : Money),
      APGVB.extractAmountsLoop 0 off ls = some (info, st2) →
      info.credit.isSome = true := by
  intro ls
  induction ls with
  | nil =>
    intro off info st2 h
    exact absurd h (by simp [APGVB.extractAmountsLoop])
  | cons l ls ih =>
    intro off info st2 h
    simp only [APGVB.extractAmountsLoop] at h
    split at h
    · exact ih _ _ _ h
    · rcases hbal : APGVB.extractBalanceFromLine (trimChars l) with _ | ⟨cur, before⟩ <;>
        rw [hbal] at h <;> dsimp only at h
      · exact ih _ _ _ h
      · rcases hamt : APGVB.extractTransactionAmount before with _ | amt <;>
          rw [hamt] at h <;> dsimp only at h
        · exact ih _ _ _ h
        · injection h with h
          have hc := congrArg Prod.fst h
          simp only at hc
          rw [← hc, determine_credit_of_nonneg amt cur off
            (extractBalanceFromLine_nonneg _ _ _ hbal)]
          rfl

/-- On a fresh accumulator (absent or 0) `_extract_transaction_amounts`
keeps the accumulator at 0 when nothing is found and classifies a found
transaction as a credit. -/
theorem extractTransactionAmounts_fresh_eq (st : Option Money) (la : List (List Char))
    (hst : st = none ∨ st = some 0) :
    APGVB.extractTransactionAmounts st la
      = (match APGVB.extractAmountsLoop 0 0 (la.take 4) with
         | none => (none, some 0)
         | some (info, newPrev) => (some info, some newPrev)) := by
  rcases hst with rfl | rfl <;> rfl

theorem extractTransactionAmounts_fresh (st : Option Money) (la : List (List Char))
    (hst : st = none ∨ st = some 0) :
    ((APGVB.extractTransactionAmounts st la).1 = none →
      (APGVB.extractTransactionAmounts st la).2 = some 0) ∧
    (∀ info, (APGVB.extractTransactionAmounts st la).1 = some info →
      info.credit.isSome = true) := by
  rw [extractTransactionAmounts_fresh_eq st la hst]
  rcases hl : APGVB.extractAmountsLoop 0 0 (la.take 4) with _ | ⟨info', np⟩
  · exact ⟨fun _ => rfl, fun info h1 => absurd h1 (by simp)⟩
  · refine ⟨fun h1 => absurd h1 (by simp), fun info h1 => ?_⟩
    simp only at h1
    injection h1 with h1
    exact h1 ▸ extractAmountsLoop_zero_credit _ _ _ _ hl

/-- When `_process_transaction_data` finds no amounts it returns the
accumulator produced by `_extract_transaction_amounts`. -/
theorem processTransactionData_none (st : Option Money) (gd fa : List Char)
    (la : List (List Char)) (c pn : Nat) (st2 : Option Money)
    (h : APGVB.processTransactionData st gd fa la c pn = (none, st2)) :
    (APGVB.extractTransactionAmounts st la).1 = none ∧
      (APGVB.extractTransactionAmounts st la).2 = st2 := by
  unfold APGVB.processTransactionData at h
  split at h
  · rename_i st' heq
    injection h with h1 h2
    exact ⟨congrArg Prod.fst heq |>.trans (by simp), (congrArg Prod.snd heq).symm ▸ h2⟩
  · exact absurd h (by simp)

/-- A transaction produced by `_process_transaction_data` from a fresh
accumulator is classified Credit. -/
theorem processTransactionData_fresh_credit (st : Option Money) (gd fa : List Char)
    (la : List (List Char)) (c pn : Nat) (t : APGVB.Txn) (off : Nat)
    (st2 : Option Money) (hst : st = none ∨ st = some 0)
    (h : APGVB.processTransactionData st gd fa la c pn = (some (t, off), st2)) :
    t.transactionType = "Credit".data := by
  unfold APGVB.processTransactionData at h
  split at h
  · exact absurd h (by simp)
  · rename_i info st' heq
    injection h with h1 h2
    injection h1 with h1
    have hinfo : (APGVB.extractTransactionAmounts st la).1 = some info := by
      rw [heq]
    have hcred := (extractTransactionAmounts_fresh st la hst).2 info hinfo
    have ht := congrArg Prod.fst h1
    simp only at ht
    rw [← ht]
    simp [hcred]

/-- The page loop started on a fresh accumulator: if it emits nothing
the accumulator stays fresh, and the first transaction it emits is
classified Credit. -/
theorem pageLoop_fresh :
    ∀ (fuel : Nat) (st : Option Money) (c pn : Nat) (lines : List (List Char))
      (txns : List APGVB.Txn) (st2 : Option Money),
      (st = none ∨ st = some 0) →
      APGVB.pageLoop fuel st c pn lines = (txns, st2) →
      ((txns = [] → (st2 = none ∨ st2 = some 0)) ∧
        (∀ t ts, txns = t :: ts → t.transactionType = "Credit".data)) := by
  intro fuel
  induction fuel with
  | zero =>
    intro st c pn lines txns st2 hst h
    cases lines with
    | nil =>
      simp only [APGVB.pageLoop] at h
      injection h with h1 h2
      subst h1; subst h2
      exact ⟨fun _ => hst, fun t ts h => absurd h (by simp)⟩
    | cons l rest =>
      simp only [APGVB.pageLoop] at h
      injection h with h1 h2
      subst h1; subst h2
      exact ⟨fun _ => hst, fun t ts h => absurd h (by simp)⟩
  | succ f ih =>
    intro st c pn lines txns st2 hst h
    cases lines with
    | nil =>
      simp only [APGVB.pageLoop] at h
      injection h with h1 h2
      subst h1; subst h2
      exact ⟨fun _ => hst, fun t ts h => absurd h (by simp)⟩
    | cons l rest =>
      simp only [APGVB.pageLoop] at h
      split at h
      · exact ih st c pn rest txns st2 hst h
      · split at h
        · exact ih st c pn rest txns st2 hst h
        · split at h
          · exact ih st c pn rest txns st2 hst h
          · rename_i glDate fullAfter hparse
            split at h
            · rename_i st' hproc
              have hfresh := processTransactionData_none st glDate fullAfter
                (l :: rest) c pn st' hproc
              have h0 : (APGVB.extractTransactionAmounts st (l :: rest)).2 = some 0 :=
                (extractTransactionAmounts_fresh st (l :: rest) hst).1 hfresh.1
              have hst' : st' = none ∨ st' = some 0 := Or.inr (hfresh.2 ▸ h0)
              exact ih st' c pn rest txns st2 hst' h
            · rename_i t off st' hproc
              injection h with h1 h2
              refine ⟨fun habs => absurd (h1 ▸ habs) (by simp), ?_⟩
              intro t' ts' hcons
              rw [← h1] at hcons
              injection hcons with hc1 hc2
              rw [← hc1]
              exact processTransactionData_fresh_credit st glDate fullAfter
                (l :: rest) c pn t off st' hst hproc

/-- The multi-page loop started on a fresh accumulator: if it emits
nothing the accumulator stays fresh, and the first transaction it emits
is classified Credit. -/
theorem pagesLoop_fresh :
    ∀ (pages : List (List Char)) (st : Option Money) (c pn : Nat)
      (txns : List APGVB.Txn) (st2 : Option Money),
      (st = none ∨ st = some 0) →
      APGVB.extractPagesLoop st c pn pages = (txns, st2) →
      ((txns = [] → (st2 = none ∨ st2 = some 0)) ∧
        (∀ t ts, txns = t :: ts → t.transactionType = "Credit".data)) := by
  intro pages
  induction pages with
  | nil =>
    intro st c pn txns st2 hst h
    simp only [APGVB.extractPagesLoop] at h
    injection h with h1 h2
    subst h1; subst h2
    exact ⟨fun _ => hst, fun t ts h => absurd h (by simp)⟩
  | cons p ps ih =>
    intro st c pn txns st2 hst h
    simp only [APGVB.extractPagesLoop] at h
    split at h
    · exact ih st c (pn + 1) txns st2 hst h
    · rcases hres : APGVB.extractTransactionsFromPage st p pn c with ⟨ptxns, pst⟩
      rw [hres] at h
      rcases hrest : APGVB.extractPagesLoop pst (c + ptxns.length) (pn + 1) ps
        with ⟨rtxns, rst⟩
      rw [hrest] at h
      dsimp only at h
      injection h with h1 h2
      have hpage := pageLoop_fresh (splitOnChar '\n' p).length st c pn
        (splitOnChar '\n' p) ptxns pst hst
        (by rw [← hres]; rfl)
      cases ptxns with
      | nil =>
        have hpfresh : pst = none ∨ pst = some 0 := hpage.1 rfl
        have hrec := ih pst (c + ([] : List APGVB.Txn).length) (pn + 1) rtxns rst
          hpfresh hrest
        subst h1; subst h2
        exact ⟨fun hnil => hrec.1 (by simpa using hnil), fun t ts hc =>
          hrec.2 t ts (by simpa using hc)⟩
      | cons t0 pts =>
        subst h1; subst h2
        refine ⟨fun habs => absurd habs (by simp), ?_⟩
        intro t' ts' hc
        have ht0 : t' = t0 := by
          have := congrArg List.head? hc
          simpa using this.symm
        rw [ht0]
        exact hpage.2 t0 pts rfl

/-- The amended C2: the previous-balance accumulator is created at 0.0
(never at the header's opening balance), so the first transaction of a
fresh extractor instance is compared against 0 and — balances being
non-negative — always classified Credit. -/
theorem claim2_amended_previous_balance_zero :
    APGVB.initPreviousBalance none = some 0 ∧
    ∀ (pages : List (List Char)) (t : APGVB.Txn) (ts : List APGVB.Txn),
      (APGVB.extractAllTransactions none pages).1 = t :: ts →
      t.transactionType = "Credit".data := by
  refine ⟨rfl, ?_⟩
  intro pages t ts h
  have hmain := pagesLoop_fresh pages none 1 1
    (APGVB.extractAllTransactions none pages).1
    (APGVB.extractAllTransactions none pages).2 (Or.inl rfl) rfl
  exact hmain.2 t ts h

/-- Witness for the amended C2 at a concrete input: `pdfOpen` (header
opening balance 1000, first transaction balance 500) still yields a
Credit as its first transaction. -/
theorem claim2_amended_witness :
    ((APGVB.extractAllTransactions none pdfOpen.pages).1.head?.getD
        APGVB.defaultTxn).transactionType = "Credit".data :=
  claim2_amended_previous_balance_zero.2 pdfOpen.pages
    ((APGVB.extractAllTransactions none pdfOpen.pages).1.head?.getD APGVB.defaultTxn)
    ((APGVB.extractAllTransactions none pdfOpen.pages).1.tail)
    (by decide)

/-- `range'` with unit step distributes over append. -/
theorem range'_append_one (s m n : Nat) :
    List.range' s m ++ List.range' (s + m) n = List.range' s (m + n) := by
  induction m generalizing s with
  | zero => simp
  | succ m ih =>
    have h1 : s + (m + 1) = (s + 1) + m := by omega
    have h2 : m + 1 + n = (m + n) + 1 := by omega
    calc List.range' s (m + 1) ++ List.range' (s + (m + 1)) n
        = s :: (List.range' (s + 1) m ++ List.range' ((s + 1) + m) n) := by
          rw [h1]; rfl
      _ = s :: List.range' (s + 1) (m + n) := by rw [ih]
      _ = List.range' s (m + n + 1) := rfl
      _ = List.range' s (m + 1 + n) := by rw [h2]

/-- A transaction produced by `_process_transaction_data` carries the
counter it was given as its serial number. -/
theorem processTransactionData_sno (st : Option Money) (gd fa : List Char)
    (la : List (List Char)) (c pn : Nat) (t : APGVB.Txn) (off : Nat)
    (st2 : Option Money)
    (h : APGVB.processTransactionData st gd fa la c pn = (some (t, off), st2)) :
    t.sNo = c := by
  unfold APGVB.processTransactionData at h
  split at h
  · exact absurd h (by simp)
  · injection h with h1 h2
    injection h1 with h1
    have ht := congrArg Prod.fst h1
    simp only at ht
    rw [← ht]

/-- The APGVB page loop numbers its output contiguously from the
starting counter. -/
theorem apgvb_pageLoop_snos :
    ∀ (fuel : Nat) (st : Option Money) (c pn : Nat) (lines : List (List Char))
      (txns : List APGVB.Txn) (st2 : Option Money),
      APGVB.pageLoop fuel st c pn lines = (txns, st2) →
      txns.map (fun t => t.sNo) = List.range' c txns.length := by
  intro fuel
  induction fuel with
  | zero =>
    intro st c pn lines txns st2 h
    cases lines <;>
      (simp only [APGVB.pageLoop] at h
       injection h with h1 h2
       subst h1
       simp)
  | succ f ih =>
    intro st c pn lines txns st2 h
    cases lines with
    | nil =>
      simp only [APGVB.pageLoop] at h
      injection h with h1 h2
      subst h1
      simp
    | cons l rest =>
      simp only [APGVB.pageLoop] at h
      split at h
      · exact ih _ _ _ _ _ _ h
      · split at h
        · exact ih _ _ _ _ _ _ h
        · split at h
          · exact ih _ _ _ _ _ _ h
          · rename_i glDate fullAfter hparse
            split at h
            · exact ih _ _ _ _ _ _ h
            · rename_i t off st' hproc
              injection h with h1 h2
              subst h1
              have hin := ih st' (c + 1) pn (rest.drop off)
                (APGVB.pageLoop f st' (c + 1) pn (rest.drop off)).1
                (APGVB.pageLoop f st' (c + 1) pn (rest.drop off)).2 rfl
              simp only [List.map_cons, List.length_cons, hin,
                processTransactionData_sno st glDate fullAfter (l :: rest) c pn t off
                  st' hproc]
              rfl

/-- The APGVB multi-page loop numbers its output contiguously from the
starting counter, continuing across pages. -/
theorem apgvb_pagesLoop_snos :
    ∀ (pages : List (List Char)) (st : Option Money) (c pn : Nat)
      (txns : List APGVB.Txn) (st2 : Option Money),
      APGVB.extractPagesLoop st c pn pages = (txns, st2) →
      txns.map (fun t => t.sNo) = List.range' c txns.length := by
  intro pages
  induction pages with
  | nil =>
    intro st c pn txns st2 h
    simp only [APGVB.extractPagesLoop] at h
    injection h with h1 h2
    subst h1
    simp
  | cons p ps ih =>
    intro st c pn txns st2 h
    simp only [APGVB.extractPagesLoop] at h
    split at h
    · exact ih _ _ _ _ _ h
    · rcases hres : APGVB.extractTransactionsFromPage st p pn c with ⟨ptxns, pst⟩
      rw [hres] at h
      rcases hrest : APGVB.extractPagesLoop pst (c + ptxns.length) (pn + 1) ps
        with ⟨rtxns, rst⟩
      rw [hrest] at h
      dsimp only at h
      injection h with h1 h2
      subst h1
      have hp : ptxns.map (fun t => t.sNo) = List.range' c ptxns.length :=
        apgvb_pageLoop_snos (splitOnChar '\n' p).length st c pn (splitOnChar '\n' p)
          ptxns pst (by rw [← hres]; rfl)
      have hr : rtxns.map (fun t => t.sNo)
          = List.range' (c + ptxns.length) rtxns.length :=
        ih pst (c + ptxns.length) (pn + 1) rtxns rst hrest
      simp only [List.map_append, List.length_append, hp, hr]
      exact range'_append_one c ptxns.length rtxns.length

/-- A transaction produced by `_parse_combined_transaction` carries the
serial number it was given. -/
theorem canara_parse_sno (combined amounts : List Char) (pn sn : Nat)
    (t : Canara.Txn) (h : Canara.parseCombinedTransaction combined amounts pn sn = some t) :
    t.sNo = sn := by
  rcases hw : pySplitWs combined with _ | ⟨date, ws⟩ <;>
    simp only [Canara.parseCombinedTransaction, hw] at h
  · exact absurd h (by simp)
  · split at h
    · exact absurd h (by simp)
    · injection h with h
      rw [← h]

/-- The Canara page loop numbers its output contiguously from the
starting counter (which `_extract_transactions_from_page` resets to 1
for every page). -/
theorem canara_pageLoop_snos :
    ∀ (fuel c pn : Nat) (lines : List (List Char)) (txns : List Canara.Txn),
      Canara.pageLoop fuel c pn lines = txns →
      txns.map (fun t => t.sNo) = List.range' c txns.length := by
  intro fuel
  induction fuel with
  | zero =>
    intro c pn lines txns h
    cases lines <;>
      (simp only [Canara.pageLoop] at h
       subst h
       simp)
  | succ f ih =>
    intro c pn lines txns h
    cases lines with
    | nil =>
      simp only [Canara.pageLoop] at h
      subst h
      simp
    | cons l rest =>
      simp only [Canara.pageLoop] at h
      split at h
      · exact ih _ _ _ _ h
      · split at h
        · exact ih _ _ _ _ h
        · split at h
          · split at h
            · rename_i t hparse
              subst h
              have hin := ih (c + 1) pn
                (rest.dropWhile (fun x => !Canara.startsWithDateDMY (trimChars x)))
                (Canara.pageLoop f (c + 1) pn
                  (rest.dropWhile (fun x => !Canara.startsWithDateDMY (trimChars x)))) rfl
              simp only [List.map_cons, List.length_cons, hin,
                canara_parse_sno _ _ pn c t hparse]
              rfl
            · exact ih _ _ _ _ h
          · exact ih _ _ _ _ h

/-- The amended C3: APGVB serial numbers are the contiguous sequence
1, 2, … across the whole statement (the counter continues over page
boundaries), while the Canara Bank extractor restarts its counter at 1
on every page, so contiguity from 1 holds only per page there. -/
theorem claim3_amended_serial_numbers :
    (∀ (st : Option Money) (pages : List (List Char)),
      ((APGVB.extractAllTransactions st pages).1.map (fun t => t.sNo))
        = List.range' 1 (APGVB.extractAllTransactions st pages).1.length) ∧
    (∀ (pageText : List Char) (pn : Nat),
      ((Canara.extractTransactionsFromPage pageText pn).map (fun t => t.sNo))
        = List.range' 1 (Canara.extractTransactionsFromPage pageText pn).length) := by
  constructor
  · intro st pages
    exact apgvb_pagesLoop_snos pages st 1 1 _ _ rfl
  · intro pageText pn
    exact canara_pageLoop_snos _ 1 pn _ _ rfl

/-- `_determine_transaction_type` always fills exactly one of the two
amount fields. -/
theorem determine_shape (prev amt cur : Money) (off : Nat) :
    ((APGVB.determineTransactionType prev amt cur off).1).debit.isSome
      = !((APGVB.determineTransactionType prev amt cur off).1).credit.isSome := by
  unfold APGVB.determineTransactionType
  by_cases h1 : cur - prev > 0
  · simp [h1]
  · by_cases h2 : cur - prev < 0
    · simp [h1, h2]
    · simp [h1, h2]

/-- The offset loop always fills exactly one of the two amount fields. -/
theorem extractAmountsLoop_shape :
    ∀ (ls : List (List Char)) (prev : Money) (off : Nat) (info : APGVB.AmountsInfo)
      (st2 : Money), APGVB.extractAmountsLoop prev off ls = some (info, st2) →
      info.debit.isSome = !info.credit.isSome := by
  intro ls
  induction ls with
  | nil =>
    intro prev off info st2 h
    exact absurd h (by simp [APGVB.extractAmountsLoop])
  | cons l ls ih =>
    intro prev off info st2 h
    simp only [APGVB.extractAmountsLoop] at h
    split at h
    · exact ih _ _ _ _ h
    · rcases hbal : APGVB.extractBalanceFromLine (trimChars l) with _ | ⟨cur, before⟩ <;>
        rw [hbal] at h <;> dsimp only at h
      · exact ih _ _ _ _ h
      · rcases hamt : APGVB.extractTransactionAmount before with _ | amt <;>
          rw [hamt] at h <;> dsimp only at h
        · exact ih _ _ _ _ h
        · injection h with h
          have hc := congrArg Prod.fst h
          simp only at hc
          rw [← hc]
          exact determine_shape prev amt cur off

/-- `_extract_transaction_amounts` always fills exactly one of the two
amount fields when it finds one. -/
theorem extractTransactionAmounts_shape (st : Option Money) (la : List (List Char))
    (info : APGVB.AmountsInfo) (st2 : Option Money)
    (h : APGVB.extractTransactionAmounts st la = (some info, st2)) :
    info.debit.isSome = !info.credit.isSome := by
  unfold APGVB.extractTransactionAmounts at h
  dsimp only at h
  generalize hgen : (match APGVB.initPreviousBalance st with
    | some b => b
    | none => 0) = prev at h
  rcases hl : APGVB.extractAmountsLoop prev 0 (la.take 4) with _ | ⟨info', np⟩ <;>
    rw [hl] at h <;> dsimp only at h
  · exact absurd (congrArg Prod.fst h) (by simp)
  · have h1 := congrArg Prod.fst h
    simp only at h1
    injection h1 with h1
    exact h1 ▸ extractAmountsLoop_shape _ _ _ _ _ hl

/-- Every transaction produced by `_process_transaction_data` satisfies
the debit/credit exclusivity invariant with matching type. -/
theorem processTransactionData_excl (st : Option Money) (gd fa : List Char)
    (la : List (List Char)) (c pn : Nat) (t : APGVB.Txn) (off : Nat)
    (st2 : Option Money)
    (h : APGVB.processTransactionData st gd fa la c pn = (some (t, off), st2)) :
    (t.debit.isSome = !t.credit.isSome) ∧
      (t.transactionType = "Credit".data ↔ t.credit.isSome = true) ∧
      (t.transactionType = "Debit".data ↔ t.credit.isSome = false) := by
  unfold APGVB.processTransactionData at h
  split at h
  · exact absurd h (by simp)
  · rename_i info st' heq
    injection h with h1 h2
    injection h1 with h1
    have hshape := extractTransactionAmounts_shape st la info st' heq
    have ht := congrArg Prod.fst h1
    simp only at ht
    rw [← ht]
    rcases hc : info.credit.isSome with _ | _
    · rw [hc] at hshape
      exact ⟨by simp [hshape, hc], by simp [hc], by simp [hc]⟩
    · rw [hc] at hshape
      exact ⟨by simp [hshape, hc], by simp [hc], by simp [hc]⟩

/-- Every transaction emitted by the APGVB page loop satisfies the
exclusivity invariant. -/
theorem apgvb_pageLoop_mem :
    ∀ (fuel : Nat) (st : Option Money) (c pn : Nat) (lines : List (List Char))
      (txns : List APGVB.Txn) (st2 : Option Money),
      APGVB.pageLoop fuel st c pn lines = (txns, st2) →
      ∀ t ∈ txns,
        (t.debit.isSome = !t.credit.isSome) ∧
          (t.transactionType = "Credit".data ↔ t.credit.isSome = true) ∧
          (t.transactionType = "Debit".data ↔ t.credit.isSome = false) := by
  intro fuel
  induction fuel with
  | zero =>
    intro st c pn lines txns st2 h
    cases lines <;>
      (simp only [APGVB.pageLoop] at h
       injection h with h1 h2
       subst h1
       simp)
  | succ f ih =>
    intro st c pn lines txns st2 h
    cases lines with
    | nil =>
      simp only [APGVB.pageLoop] at h
      injection h with h1 h2
      subst h1
      simp
    | cons l rest =>
      simp only [APGVB.pageLoop] at h
      split at h
      · exact ih _ _ _ _ _ _ h
      · split at h
        · exact ih _ _ _ _ _ _ h
        · split at h
          · exact ih _ _ _ _ _ _ h
          · rename_i glDate fullAfter hparse
            split at h
            · exact ih _ _ _ _ _ _ h
            · rename_i t off st' hproc
              injection h with h1 h2
              subst h1
              intro t' ht'
              rcases List.mem_cons.mp ht' with rfl | hmem
              · exact processTransactionData_excl st glDate fullAfter (l :: rest)
                  c pn t' off st' hproc
              · exact ih st' (c + 1) pn (rest.drop off) _ _ rfl t' hmem

/-- Every transaction emitted by the APGVB multi-page loop satisfies the
exclusivity invariant. -/
theorem apgvb_pagesLoop_mem :
    ∀ (pages : List (List Char)) (st : Option Money) (c pn : Nat)
      (txns : List APGVB.Txn) (st2 : Option Money),
      APGVB.extractPagesLoop st c pn pages = (txns, st2) →
      ∀ t ∈ txns,
        (t.debit.isSome = !t.credit.isSome) ∧
          (t.transactionType = "Credit".data ↔ t.credit.isSome = true) ∧
          (t.transactionType = "Debit".data ↔ t.credit.isSome = false) := by
  intro pages
  induction pages with
  | nil =>
    intro st c pn txns st2 h
    simp only [APGVB.extractPagesLoop] at h
    injection h with h1 h2
    subst h1
    simp
  | cons p ps ih =>
    intro st c pn txns st2 h
    simp only [APGVB.extractPagesLoop] at h
    split at h
    · exact ih _ _ _ _ _ h
    · rcases hres : APGVB.extractTransactionsFromPage st p pn c with ⟨ptxns, pst⟩
      rw [hres] at h
      rcases hrest : APGVB.extractPagesLoop pst (c + ptxns.length) (pn + 1) ps
        with ⟨rtxns, rst⟩
      rw [hrest] at h
      dsimp only at h
      injection h with h1 h2
      subst h1
      intro t ht
      rcases List.mem_append.mp ht with hmem | hmem
      · exact apgvb_pageLoop_mem (splitOnChar '\n' p).length st c pn
          (splitOnChar '\n' p) ptxns pst (by rw [← hres]; rfl) t hmem
      · exact ih pst (c + ptxns.length) (pn + 1) rtxns rst hrest t hmem

/-- A single-character `containsSub` means the character occurs. -/
theorem containsSub_single (c : Char) :
    ∀ l : List Char, containsSub [c] l = true → c ∈ l := by
  intro l
  induction l with
  | nil =>
    intro h
    exact absurd h (by simp [containsSub, startsWithChars])
  | cons a as ih =>
    intro h
    simp only [containsSub, startsWithChars, Bool.or_eq_true, Bool.and_eq_true] at h
    rcases h with ⟨h1, _⟩ | h
    · have hca : c = a := of_decide_eq_true h1
      rw [hca]
      exact List.mem_cons_self a as
    · exact List.mem_cons_of_mem a (ih h)

/-- Every value kept by the Canara numeric filter is a non-empty string
(it still contains its '.'). -/
theorem numericValues_ne_nil (l : List Char) :
    ∀ x ∈ Canara.numericValues l, x ≠ [] := by
  intro x hx
  unfold Canara.numericValues at hx
  rw [List.mem_filterMap] at hx
  obtain ⟨part, hpart, hgate⟩ := hx
  split at hgate
  · rename_i hcond
    injection hgate with hg
    subst hg
    rw [Bool.and_eq_true] at hcond
    have hdot : '.' ∈ part := containsSub_single '.' part hcond.1
    have hmem : '.' ∈ part.filter (fun c => c ≠ ',') :=
      List.mem_filter.mpr ⟨hdot, by decide⟩
    exact List.ne_nil_of_mem hmem
  · exact absurd hgate (by simp)

/-- The Canara amount string is never the empty string ("0.00" default or
a kept numeric token). -/
theorem amountBalance_fst_ne_nil (l : List Char) :
    (Canara.amountBalance l).1 ≠ [] := by
  unfold Canara.amountBalance
  split
  · decide
  · rcases hnv : Canara.numericValues l with _ | ⟨a, rest⟩
    · simp [hnv]
    · rcases rest with _ | ⟨b, rest2⟩
      · simp [hnv]
      · simp [hnv]
        exact numericValues_ne_nil l a (by rw [hnv]; exact List.mem_cons_self a _)

/-- Every transaction produced by `_parse_combined_transaction`
satisfies the debit/credit exclusivity invariant with matching type. -/
theorem canara_parse_excl (combined amounts : List Char) (pn sn : Nat)
    (t : Canara.Txn)
    (h : Canara.parseCombinedTransaction combined amounts pn sn = some t) :
    ((t.debit = [] ↔ ¬ t.credit = []) ∧
      (t.transactionType = "Credit".data ↔ t.debit = []) ∧
      (t.transactionType = "Debit".data ↔ ¬ t.debit = [])) := by
  have hne := amountBalance_fst_ne_nil amounts
  rcases hw : pySplitWs combined with _ | ⟨date, ws⟩ <;>
    simp only [Canara.parseCombinedTransaction, hw] at h
  · exact absurd h (by simp)
  · split at h
    · exact absurd h (by simp)
    · injection h with h
      subst h
      rcases hdr : containsSub ("/DR/".data) combined with _ | _
      · refine ⟨?_, ?_, ?_⟩
        · simp [hdr, hne]
        · simp [hdr]
        · simp [hdr]
      · refine ⟨?_, ?_, ?_⟩
        · simp [hdr, hne]
        · simp [hdr, hne]
        · simp [hdr, hne]

/-- Every transaction emitted by the Canara page loop satisfies the
exclusivity invariant. -/
theorem canara_pageLoop_mem :
    ∀ (fuel c pn : Nat) (lines : List (List Char)) (txns : List Canara.Txn),
      Canara.pageLoop fuel c pn lines = txns →
      ∀ t ∈ txns,
        ((t.debit = [] ↔ ¬ t.credit = []) ∧
          (t.transactionType = "Credit".data ↔ t.debit = []) ∧
          (t.transactionType = "Debit".data ↔ ¬ t.debit = [])) := by
  intro fuel
  induction fuel with
  | zero =>
    intro c pn lines txns h
    cases lines <;>
      (simp only [Canara.pageLoop] at h
       subst h
       simp)
  | succ f ih =>
    intro c pn lines txns h
    cases lines with
    | nil =>
      simp only [Canara.pageLoop] at h
      subst h
      simp
    | cons l rest =>
      simp only [Canara.pageLoop] at h
      split at h
      · exact ih _ _ _ _ h
      · split at h
        · exact ih _ _ _ _ h
        · split at h
          · split at h
            · rename_i t hparse
              subst h
              intro t' ht'
              rcases List.mem_cons.mp ht' with rfl | hmem
              · exact canara_parse_excl _ _ pn c t' hparse
              · exact ih (c + 1) pn _ _ rfl t' hmem
            · exact ih _ _ _ _ h
          · exact ih _ _ _ _ h

/-- Every transaction emitted by the Canara multi-page extraction
satisfies the exclusivity invariant. -/
theorem canara_pages_mem :
    ∀ (pages : List (List Char)) (pn : Nat) (t : Canara.Txn),
      t ∈ Canara.extractAllTransactionsAux pn pages →
      ((t.debit = [] ↔ ¬ t.credit = []) ∧
        (t.transactionType = "Credit".data ↔ t.debit = []) ∧
        (t.transactionType = "Debit".data ↔ ¬ t.debit = [])) := by
  intro pages
  induction pages with
  | nil =>
    intro pn t ht
    exact absurd ht (by simp [Canara.extractAllTransactionsAux])
  | cons p ps ih =>
    intro pn t ht
    simp only [Canara.extractAllTransactionsAux] at ht
    rcases List.mem_append.mp ht with hmem | hmem
    · split at hmem
      · exact absurd hmem (by simp)
      · exact canara_pageLoop_mem _ 1 pn _ _ rfl t hmem
    · exact ih (pn + 1) t hmem

/-- The amended C5: APGVB and Canara records carry Debit/Credit fields
of which exactly one is non-empty, with Transaction_Type naming the
non-empty side; Union Bank records carry no Debit/Credit fields at all. -/
theorem claim5_amended_exclusivity :
    (∀ (st : Option Money) (pages : List (List Char)) (t : APGVB.Txn),
      t ∈ (APGVB.extractAllTransactions st pages).1 →
      ((t.debit.isSome = !t.credit.isSome) ∧
        (t.transactionType = "Credit".data ↔ t.credit.isSome = true) ∧
        (t.transactionType = "Debit".data ↔ t.credit.isSome = false))) ∧
    (∀ (pages : List (List Char)) (t : Canara.Txn),
      t ∈ Canara.extractAllTransactions pages →
      ((t.debit = [] ↔ ¬ t.credit = []) ∧
        (t.transactionType = "Credit".data ↔ t.debit = []) ∧
        (t.transactionType = "Debit".data ↔ ¬ t.debit = []))) ∧
    ¬ ("Debit".data ∈ Union.transactionFields) ∧
    ¬ ("Credit".data ∈ Union.transactionFields) := by
  refine ⟨?_, ?_, by decide, by decide⟩
  · intro st pages t ht
    exact apgvb_pagesLoop_mem pages st 1 1 _ _ rfl t ht
  · intro pages t ht
    exact canara_pages_mem pages 1 t ht

/-- Witness for the amended C5 at a concrete input: the first
transaction of `pdfSeq` satisfies the exclusivity invariant. -/
theorem claim5_amended_witness :
    ((((APGVB.extractAllTransactions none pdfSeq.pages).1.head?.getD
          APGVB.defaultTxn).debit.isSome
        = !((APGVB.extractAllTransactions none pdfSeq.pages).1.head?.getD
          APGVB.defaultTxn).credit.isSome) ∧
      (((APGVB.extractAllTransactions none pdfSeq.pages).1.head?.getD
          APGVB.defaultTxn).transactionType = "Credit".data ↔
        ((APGVB.extractAllTransactions none pdfSeq.pages).1.head?.getD
          APGVB.defaultTxn).credit.isSome = true) ∧
      (((APGVB.extractAllTransactions none pdfSeq.pages).1.head?.getD
          APGVB.defaultTxn).transactionType = "Debit".data ↔
        ((APGVB.extractAllTransactions none pdfSeq.pages).1.head?.getD
          APGVB.defaultTxn).credit.isSome = false)) :=
  claim5_amended_exclusivity.1 none pdfSeq.pages
    ((APGVB.extractAllTransactions none pdfSeq.pages).1.head?.getD APGVB.defaultTxn)
    (by decide)

/-- Specification of `_decrypt_pdf` (APGVB): it fails exactly on a falsy
password or when both the password and its stripped variant are
rejected, and only with one of the two decryption messages. -/
theorem apgvb_decryptPdf_spec (pdf : Pdf) (pw : Option (List Char)) :
    ((∃ e, APGVB.decryptPdf pdf pw = Except.error e) ↔
      (pw = none ∨ pw = some [] ∨
        ∃ p, pw = some p ∧ p ≠ [] ∧ pdf.accepts p = false ∧
          pdf.accepts (trimChars p) = false)) ∧
    (∀ e, APGVB.decryptPdf pdf pw = Except.error e →
      e = APGVB.noPasswordMsg ∨ e = APGVB.badPasswordMsg) := by
  rcases pw with _ | p
  · exact ⟨⟨fun _ => Or.inl rfl, fun _ => ⟨_, rfl⟩⟩,
      fun e he => Or.inl (by injection he with h; exact h.symm)⟩
  · rcases p with _ | ⟨c, cs⟩
    · exact ⟨⟨fun _ => Or.inr (Or.inl rfl), fun _ => ⟨_, rfl⟩⟩,
        fun e he => Or.inl (by injection he with h; exact h.symm)⟩
    · by_cases h1 : pdf.accepts (c :: cs) = true
      · constructor
        · simp [APGVB.decryptPdf, h1]
        · intro e he
          simp [APGVB.decryptPdf, h1] at he
      · by_cases h2 : trimChars (c :: cs) = c :: cs
        · constructor
          · simp only [APGVB.decryptPdf, Bool.not_eq_true] at h1 ⊢
            simp [h1, h2]
          · intro e he
            simp only [APGVB.decryptPdf, Bool.not_eq_true] at h1 he
            simp [h1, h2] at he
            exact Or.inr he.symm
        · by_cases h3 : pdf.accepts (trimChars (c :: cs)) = true
          · constructor
            · simp only [APGVB.decryptPdf, Bool.not_eq_true] at h1 ⊢
              simp [h1, h2, h3]
            · intro e he
              simp only [APGVB.decryptPdf, Bool.not_eq_true] at h1 he
              simp [h1, h2, h3] at he
          · constructor
            · simp only [APGVB.decryptPdf, Bool.not_eq_true] at h1 h3 ⊢
              simp [h1, h2, h3]
            · intro e he
              simp only [APGVB.decryptPdf, Bool.not_eq_true] at h1 h3 he
              simp [h1, h2, h3] at he
              exact Or.inr he.symm

/-- Specification of the inline Union Bank decryption: same behaviour as
`apgvb_decryptPdf_spec` with the Union messages. -/
theorem union_decryptPdf_spec (pdf : Pdf) (pw : Option (List Char)) :
    ((∃ e, Union.decryptPdf pdf pw = Except.error e) ↔
      (pw = none ∨ pw = some [] ∨
        ∃ p, pw = some p ∧ p ≠ [] ∧ pdf.accepts p = false ∧
          pdf.accepts (trimChars p) = false)) ∧
    (∀ e, Union.decryptPdf pdf pw = Except.error e →
      e = Union.noPasswordMsg ∨ e = Union.badPasswordMsg) := by
  rcases pw with _ | p
  · exact ⟨⟨fun _ => Or.inl rfl, fun _ => ⟨_, rfl⟩⟩,
      fun e he => Or.inl (by injection he with h; exact h.symm)⟩
  · rcases p with _ | ⟨c, cs⟩
    · exact ⟨⟨fun _ => Or.inr (Or.inl rfl), fun _ => ⟨_, rfl⟩⟩,
        fun e he => Or.inl (by injection he with h; exact h.symm)⟩
    · by_cases h1 : pdf.accepts (c :: cs) = true
      · constructor
        · simp [Union.decryptPdf, h1]
        · intro e he
          simp [Union.decryptPdf, h1] at he
      · by_cases h2 : trimChars (c :: cs) = c :: cs
        · constructor
          · simp only [Union.decryptPdf, Bool.not_eq_true] at h1 ⊢
            simp [h1, h2]
          · intro e he
            simp only [Union.decryptPdf, Bool.not_eq_true] at h1 he
            simp [h1, h2] at he
            exact Or.inr he.symm
        · by_cases h3 : pdf.accepts (trimChars (c :: cs)) = true
          · constructor
            · simp only [Union.decryptPdf, Bool.not_eq_true] at h1 ⊢
              simp [h1, h2, h3]
            · intro e he
              simp only [Union.decryptPdf, Bool.not_eq_true] at h1 he
              simp [h1, h2, h3] at he
          · constructor
            · simp only [Union.decryptPdf, Bool.not_eq_true] at h1 h3 ⊢
              simp [h1, h2, h3]
            · intro e he
              simp only [Union.decryptPdf, Bool.not_eq_true] at h1 h3 he
              simp [h1, h2, h3] at he
              exact Or.inr he.symm

/-- C8: for an encrypted source (passing content validation in the APGVB
case), extraction fails exactly when no password is supplied (including
the empty string) or both the password as given and its
whitespace-trimmed variant fail to decrypt; every such failure carries
one of the two decryption error messages, and the failing call returns
only that error — no result object, hence no partial transactions. -/
theorem claim8_password_handling :
    (∀ (pdf : Pdf) (st : Option Money) (pw : Option (List Char)),
      pdf.isEncrypted = true →
      APGVB.validatePdfContent pdf = Except.ok () →
      (((∃ e, (APGVB.extractCompleteStatement st pdf pw).1 = Except.error e) ↔
          (pw = none ∨ pw = some [] ∨
            ∃ p, pw = some p ∧ p ≠ [] ∧ pdf.accepts p = false ∧
              pdf.accepts (trimChars p) = false)) ∧
        (∀ e, (APGVB.extractCompleteStatement st pdf pw).1 = Except.error e →
          e = APGVB.noPasswordMsg ∨ e = APGVB.badPasswordMsg))) ∧
    (∀ (pdf : Pdf) (pw : Option (List Char)),
      pdf.isEncrypted = true → pdf.pages ≠ [] →
      (((∃ e, Union.extractCompleteStatement pdf pw = Except.error e) ↔
          (pw = none ∨ pw = some [] ∨
            ∃ p, pw = some p ∧ p ≠ [] ∧ pdf.accepts p = false ∧
              pdf.accepts (trimChars p) = false)) ∧
        (∀ e, Union.extractCompleteStatement pdf pw = Except.error e →
          e = Union.noPasswordMsg ∨ e = Union.badPasswordMsg))) := by
  constructor
  · intro pdf st pw henc hval
    have hd := apgvb_decryptPdf_spec pdf pw
    rcases hdec : APGVB.decryptPdf pdf pw with e | u
    · have hx : (APGVB.extractCompleteStatement st pdf pw).1 = Except.error e := by
        unfold APGVB.extractCompleteStatement
        rw [hval, henc]
        simp [hdec]
      rw [hx]
      refine ⟨⟨fun _ => hd.1.mp ⟨e, hdec⟩, fun _ => ⟨e, rfl⟩⟩, ?_⟩
      intro e' he'
      have : e = e' := by injection he'
      exact this ▸ hd.2 e hdec
    · have hx : ∃ r, (APGVB.extractCompleteStatement st pdf pw).1 = Except.ok r := by
        unfold APGVB.extractCompleteStatement
        rw [hval, henc]
        simp [hdec]
      obtain ⟨r, hr⟩ := hx
      rw [hr]
      constructor
      · constructor
        · rintro ⟨e, he⟩
          exact absurd he (by simp)
        · intro hrhs
          obtain ⟨e, he⟩ := hd.1.mpr hrhs
          rw [hdec] at he
          exact absurd he (by simp)
      · intro e he
        exact absurd he (by simp)
  · intro pdf pw henc hpages
    have hd := union_decryptPdf_spec pdf pw
    rcases hdec : Union.decryptPdf pdf pw with e | u
    · have hx : Union.extractCompleteStatement pdf pw = Except.error e := by
        unfold Union.extractCompleteStatement
        rw [henc]
        simp [hdec]
      rw [hx]
      refine ⟨⟨fun _ => hd.1.mp ⟨e, hdec⟩, fun _ => ⟨e, rfl⟩⟩, ?_⟩
      intro e' he'
      have : e = e' := by injection he'
      exact this ▸ hd.2 e hdec
    · have hx : ∃ r, Union.extractCompleteStatement pdf pw = Except.ok r := by
        unfold Union.extractCompleteStatement
        rw [henc]
        rcases hp : pdf.pages with _ | ⟨p0, ps⟩
        · exact absurd hp hpages
        · simp [hdec]
      obtain ⟨r, hr⟩ := hx
      rw [hr]
      constructor
      · constructor
        · rintro ⟨e, he⟩
          exact absurd he (by simp)
        · intro hrhs
          obtain ⟨e, he⟩ := hd.1.mpr hrhs
          rw [hdec] at he
          exact absurd he (by simp)
      · intro e he
        exact absurd he (by simp)

/-- Witness for C8 at a concrete input: the encrypted `pdfLocked`
(accepting exactly "secret") is decrypted successfully when the supplied
password carries a trailing blank, via the trimmed-password retry. -/
theorem claim8_witness :
    ¬ ∃ e, (APGVB.extractCompleteStatement none pdfLocked
        (some ("secret ".data))).1 = Except.error e := by
  intro hex
  have h := (claim8_password_handling.1 pdfLocked none (some ("secret ".data))
    rfl (by decide)).1.mp hex
  rcases h with h | h | ⟨p, hp, hne, hacc, htr⟩
  · exact Option.noConfusion h
  · exact absurd h (by decide)
  · injection hp with hp
    subst hp
    exact absurd htr (by decide)

/-- C10: a Canara Bank transaction is typed `Debit` exactly when the
literal `/DR/` occurs in the combined transaction text and `Credit`
otherwise (the default), the parsed amount landing in the matching field
with the other field left as the empty string. -/
theorem claim10_canara_type_classification :
    ∀ (combined amounts : List Char) (pn sn : Nat) (t : Canara.Txn),
      Canara.parseCombinedTransaction combined amounts pn sn = some t →
      (t.transactionType
          = (if containsSub ("/DR/".data) combined then "Debit".data else "Credit".data)
       ∧ t.debit
          = (if containsSub ("/DR/".data) combined then (Canara.amountBalance amounts).1 else [])
       ∧ t.credit
          = (if containsSub ("/DR/".data) combined then [] else (Canara.amountBalance amounts).1)
       ∧ "Debit".data ≠ "Credit".data) := by
  intro combined amounts pn sn t ht
  rcases hw : pySplitWs combined with _ | ⟨date, ws⟩ <;>
    simp only [Canara.parseCombinedTransaction, hw] at ht
  · exact absurd ht (by simp)
  · split at ht
    · exact absurd ht (by simp)
    · injection ht with ht
      subst ht
      exact ⟨rfl, rfl, rfl, by decide⟩

/-- Witness for C10 at a concrete input: the combined text of the first
transaction of `canaraPageAsc` contains `/DR/`, so it is typed Debit
with the amount in the Debit field. -/
theorem claim10_witness :
    ((Canara.parseCombinedTransaction
        ("01-01-2024 PAYMENT/DR/SHOP Chq: 111".data) ("100.00 900.00".data) 1 1).getD
      Canara.defaultTxn).transactionType
      = (if containsSub ("/DR/".data) ("01-01-2024 PAYMENT/DR/SHOP Chq: 111".data)
         then "Debit".data else "Credit".data) :=
  (claim10_canara_type_classification
    ("01-01-2024 PAYMENT/DR/SHOP Chq: 111".data) ("100.00 900.00".data) 1 1
    ((Canara.parseCombinedTransaction
        ("01-01-2024 PAYMENT/DR/SHOP Chq: 111".data) ("100.00 900.00".data) 1 1).getD
      Canara.defaultTxn)
    (by decide)).1

end BankSpec
